import Mathlib

/-!
Tubely video upload pipeline: orientation classifier, key construction, upload handler.

A shallow embedding of `handler_upload_video.go` and `assets.go`.

* Go `float64` values are embedded as the rationals they denote; every float64
  operation is the exact rational operation followed by `roundF64` (round to
  nearest, ties to even, 53 significant bits).  For the values that arise from
  64-bit integer widths and heights no overflow or subnormal result occurs,
  so the unbounded exponent of `roundF64` is exact there.
* Go `int` is embedded as `Int`; the classifier performs no integer arithmetic,
  it only converts its arguments to float64.
* Go strings are embedded as `String`.
-/

namespace Tubely

/-! ## float64 arithmetic -/

/-- Nearest integer to `q`, a tie going to the even neighbour. -/
def roundHalfEven (q : ℚ) : ℤ :=
  let f := ⌊q⌋
  let r := q - f
  if r < 1 / 2 then f
  else if 1 / 2 < r then f + 1
  else if f % 2 = 0 then f
  else f + 1

/-- The float64 nearest to the rational `x` (round to nearest, ties to even):
`x` is scaled so that its magnitude lies in `[2^52, 2^53)`, rounded to an integer
and scaled back. -/
def roundF64 (x : ℚ) : ℚ :=
  if x = 0 then 0
  else
    let e : ℤ := Int.log 2 |x|
    let ulp : ℚ := 2 ^ (e - 52)
    roundHalfEven (x / ulp) * ulp

/-! ## Orientation classifier (`handler_upload_video.go`) -/

/-- Embedding of `calculateAspectRatio`: `float64(width) / float64(height)` compared
with `16.0 / 9.0` and `9.0 / 16.0` under the relative tolerance `0.05`. -/
def calculateAspectRatio (width height : Int) : String :=
  if width = 0 ∨ height = 0 then "other"
  else
    let ratio := roundF64 (roundF64 width / roundF64 height)
    let tolerance := roundF64 (5 / 100)
    let landscapeRatio := roundF64 (16 / 9)
    if roundF64 (|roundF64 (ratio - landscapeRatio)| / landscapeRatio) ≤ tolerance then "16:9"
    else
      let portraitRatio := roundF64 (9 / 16)
      if roundF64 (|roundF64 (ratio - portraitRatio)| / portraitRatio) ≤ tolerance then "9:16"
      else "other"

/-- Embedding of `getVideoOrientation`. -/
def getVideoOrientation (ar : String) : String :=
  if ar = "16:9" then "landscape"
  else if ar = "9:16" then "portrait"
  else "other"

/-- The orientation classifier as the handler uses it:
`getVideoOrientation (calculateAspectRatio width height)`. -/
def classify (width height : Int) : String :=
  getVideoOrientation (calculateAspectRatio width height)

/-- The relative deviation of `width / height` from `target`, in exact arithmetic. -/
def exactDeviation (width height : Int) (target : ℚ) : ℚ :=
  |(width : ℚ) / height - target| / target

/-- The relative deviation of `width / height` from `target` as the code computes it:
`math.Abs(ratio-target)/target` with every operation in float64. -/
def floatDeviation (width height : Int) (target : ℚ) : ℚ :=
  roundF64 (|roundF64 (roundF64 (roundF64 width / roundF64 height) - roundF64 target)|
    / roundF64 target)

/-! ## Metadata probe: stream selection (`getVideoAspectRatio`) -/

/-- One entry of `FFProbeOutput.Streams`; an absent `width` or `height` decodes to `0`. -/
structure Stream where
  codecType : String
  width : Int
  height : Int
deriving DecidableEq, Repr

/-- Embedding of `FFProbeOutput`. -/
structure FFProbeOutput where
  streams : List Stream
deriving DecidableEq, Repr

/-- The `for _, stream := range result.Streams` loop of `getVideoAspectRatio`: the first
stream whose codec type is `"video"` decides; running off the end is the error return. -/
def selectVideoStream : List Stream → Except String String
  | [] => .error "Invalid Video Codec"
  | stream :: rest =>
    if stream.codecType = "video" then .ok (calculateAspectRatio stream.width stream.height)
    else selectVideoStream rest

/-- Embedding of `getVideoAspectRatio`.  `run` is the outcome of running `ffprobe` on the
file (its standard output, or the error of `cmd.Run`), `unmarshal` is `json.Unmarshal` into
`FFProbeOutput`. -/
def getVideoAspectRatio (run : String → Except String String)
    (unmarshal : String → Except String FFProbeOutput) (filePath : String) :
    Except String String :=
  match run filePath with
  | .error err => .error ("ffprobe error: " ++ err)
  | .ok stdout =>
    match unmarshal stdout with
    | .error err => .error err
    | .ok result => selectVideoStream result.streams

/-! ## Content-type validation (`validateVideoFile`) -/

/-- Go `strings.HasPrefix`. -/
def stringsHasPrefix (s pre : String) : Bool :=
  pre.data.isPrefixOf s.data

/-- The map literal `allowedVideoTypes` of `validateVideoFile`, entry by entry. -/
def allowedVideoTypes : List (String × Bool) :=
  [("video/mp4", true),
   ("video/mpeg", false),
   ("video/quicktime", false),
   ("video/x-msvideo", false),
   ("video/webm", false)]

/-- Go map indexing `m[key]` on a `map[string]bool`: the stored value, or `false` (the zero
value) for an absent key. -/
def mapIndex (m : List (String × Bool)) (key : String) : Bool :=
  match m.lookup key with
  | some v => v
  | none => false

/-- Embedding of `validateVideoFile`; the `file` argument is unused by the source.
`parseMediaType` is `mime.ParseMediaType` restricted to the media type it returns. -/
def validateVideoFile (parseMediaType : String → Except String String) (contentType : String) :
    Except String String :=
  if contentType = "" then .error "Invalid Content-Type header"
  else
    match parseMediaType contentType with
    | .error err => .error ("Invalid Content-Type header: " ++ err)
    | .ok mediaType =>
      if !stringsHasPrefix mediaType "video/" then
        .error ("file must be video, got " ++ mediaType)
      else if !mapIndex allowedVideoTypes mediaType then
        .error ("video format not supported: " ++ mediaType)
      else .ok mediaType

/-! ## Asset names and URLs (`assets.go`) -/

/-- The alphabet of Go `base64.URLEncoding`. -/
def encodeURL : List Char :=
  "ABCDEFGHIJKLMNOPQRSTUVWXYZabcdefghijklmnopqrstuvwxyz0123456789-_".data

/-- The alphabet character of a 6-bit group. -/
def encodeChar (i : Nat) : Char :=
  encodeURL.getD i 'A'

/-- Go `base64.RawURLEncoding.EncodeToString`: three bytes give four characters, a
remainder of one or two bytes gives two or three characters, and no padding is written. -/
def rawURLEncode : List UInt8 → List Char
  | b0 :: b1 :: b2 :: rest =>
    let val := b0.toNat <<< 16 ||| b1.toNat <<< 8 ||| b2.toNat
    encodeChar (val >>> 18 &&& 0x3F) :: encodeChar (val >>> 12 &&& 0x3F) ::
      encodeChar (val >>> 6 &&& 0x3F) :: encodeChar (val &&& 0x3F) :: rawURLEncode rest
  | [b0, b1] =>
    let val := b0.toNat <<< 16 ||| b1.toNat <<< 8
    [encodeChar (val >>> 18 &&& 0x3F), encodeChar (val >>> 12 &&& 0x3F),
      encodeChar (val >>> 6 &&& 0x3F)]
  | [b0] =>
    let val := b0.toNat <<< 16
    [encodeChar (val >>> 18 &&& 0x3F), encodeChar (val >>> 12 &&& 0x3F)]
  | [] => []

/-- The base64 digits of a byte string as RFC 4648 describes them, by arithmetic on the byte
values: the bits of the input are read most significant first in groups of six, a final
group being completed with zero bits; no padding digit is produced. -/
def base64Digits : List Nat → List Nat
  | b0 :: b1 :: b2 :: rest =>
    b0 / 4 :: (b0 % 4 * 16 + b1 / 16) :: (b1 % 16 * 4 + b2 / 64) :: b2 % 64 ::
      base64Digits rest
  | [b0, b1] => [b0 / 4, b0 % 4 * 16 + b1 / 16, b1 % 16 * 4]
  | [b0] => [b0 / 4, b0 % 4 * 16]
  | [] => []

/-- Go `strings.Split` for a one-character separator, on character lists. -/
def splitChars (sep : Char) : List Char → List (List Char)
  | [] => [[]]
  | c :: cs =>
    if c = sep then [] :: splitChars sep cs
    else
      match splitChars sep cs with
      | [] => [[c]]
      | part :: parts => (c :: part) :: parts

/-- Go `strings.Split(s, "/")`. -/
def stringsSplit (s : String) : List String :=
  (splitChars '/' s.data).map String.mk

/-- Embedding of `mediaTypeExt`. -/
def mediaTypeExt (mediaType : String) : String :=
  match stringsSplit mediaType with
  | [_, sub] => "." ++ sub
  | _ => ".bin"

/-- Embedding of `getAssetFilename`.  `randRead` is the outcome of `rand.Read` on the
16-byte buffer; `none` is the `panic` taken when it fails. -/
def getAssetFilename (randRead : Except String (Fin 16 → UInt8)) (mediaType : String) :
    Option String :=
  match randRead with
  | .error _ => none
  | .ok bytes =>
    let filename := String.mk (rawURLEncode (List.ofFn bytes))
    let ext := mediaTypeExt mediaType
    some (filename ++ ext)

/-- The element pass of Go `filepath.Clean` on Unix: empty and `.` elements are dropped,
a `..` element removes the preceding real element, is dropped at the root of a rooted
path, and is kept at the start of a relative path.  `acc` is the output so far, last
element first. -/
def cleanElems (rooted : Bool) : List (List Char) → List (List Char) → List (List Char)
  | [], acc => acc.reverse
  | e :: es, acc =>
    if e = [] ∨ e = ['.'] then cleanElems rooted es acc
    else if e = ['.', '.'] then
      match acc with
      | top :: below =>
        if top = ['.', '.'] then cleanElems rooted es (e :: acc)
        else cleanElems rooted es below
      | [] => if rooted then cleanElems rooted es [] else cleanElems rooted es [e]
    else cleanElems rooted es (e :: acc)

/-- Go `filepath.Clean` on Unix, on character lists. -/
def cleanChars (path : List Char) : List Char :=
  if path = [] then ['.']
  else
    let rooted := path.head? = some '/'
    let elems := cleanElems rooted (splitChars '/' path) []
    let out := (if rooted then ['/'] else []) ++ List.intercalate ['/'] elems
    if out = [] then ['.'] else out

/-- Go `filepath.Clean` on Unix. -/
def filepathClean (path : String) : String :=
  String.mk (cleanChars path.data)

/-- Go `filepath.Join` on Unix: leading empty elements are skipped, the rest is joined with
`/` and cleaned; with no non-empty element the result is empty. -/
def filepathJoin : List String → String
  | [] => ""
  | e :: rest =>
    if e ≠ "" then
      filepathClean (String.mk (List.intercalate ['/'] ((e :: rest).map String.data)))
    else filepathJoin rest

/-- Modelled from the spec: the process-wide configuration `apiConfig` (declared outside
the files at hand): secret key, bucket, region and CDN host. -/
structure ApiConfig where
  jwtSecret : String
  s3Bucket : String
  s3Region : String
  s3CfDistribution : String
deriving DecidableEq, Repr

/-- Embedding of `getObjectUrl`. -/
def getObjectUrl (cfg : ApiConfig) (key : String) : String :=
  "https://" ++ cfg.s3Bucket ++ ".s3." ++ cfg.s3Region ++ ".amazonaws.com/" ++ key

/-- Embedding of `getCloudFlareUrl`. -/
def getCloudFlareUrl (cfg : ApiConfig) (key : String) : String :=
  "https://" ++ cfg.s3CfDistribution ++ "/" ++ key

/-! ## The upload handler (`handlerUploadVideo`) -/

/-- Go `uuid.UUID`: a 128-bit identifier. -/
abbrev UUID := Nat

/-- Modelled from the spec: the `database.Video` record (declared outside the files at
hand): a unique ID, the owning user, an optional video URL and an optional thumbnail URL. -/
structure Video where
  id : UUID
  userID : UUID
  videoURL : Option String
  thumbnailURL : Option String
deriving DecidableEq, Repr

/-- What a run of the handler does to the outside: responses written, temporary files
created and removed, external tools started, and calls made to the object store and to the
persistence layer. -/
inductive Event where
  | errorResponse (code : Nat) (msg : String)
  | jsonResponse (code : Nat) (payload : Video)
  | createTemp (name : String)
  | remove (name : String)
  | ffprobe (path : String)
  | ffmpeg (input output : String)
  | putObject (bucket key contentType : String)
  | updateVideo (video : Video)
deriving DecidableEq, Repr

/-- The temporary directory (file name and size) and the events of the run so far. -/
structure World where
  files : List (String × Nat)
  log : List Event
deriving DecidableEq, Repr

/-- The outcomes of the calls a run makes to its collaborators: request parsing,
authentication, persistence, the operating system, the media tools and the object store. -/
structure Env where
  /-- Outcome of `auth.GetBearerToken(r.Header)`. -/
  bearerToken : Except String String
  /-- Outcome of `auth.ValidateJWT(token, cfg.jwtSecret)`. -/
  validateJWT : String → String → Except String UUID
  /-- Outcome of `uuid.Parse(r.PathValue("videoID"))`. -/
  pathVideoID : Except String UUID
  /-- Outcome of `cfg.db.GetVideo(videoID)`. -/
  getVideo : UUID → Except String Video
  /-- Outcome of `r.ParseMultipartForm(maxUploadSize)` on the size-limited body. -/
  parseMultipartForm : Except String Unit
  /-- Outcome of `r.FormFile("video")`: the file bytes and the part's `Content-Type` header. -/
  formFile : Except String (List UInt8 × String)
  /-- Outcome of `mime.ParseMediaType`. -/
  parseMediaType : String → Except String String
  /-- Outcome of `os.CreateTemp("", "tubely-upload.mp4")`: the name of the new file. -/
  createTempUpload : Except String String
  /-- Outcome of `io.Copy(tempFile, file)`. -/
  copy : Except String Unit
  /-- Outcome of `tempFile.Seek(0, io.SeekStart)`. -/
  seek : Except String Unit
  /-- Outcome of `cmd.Run()` of `ffprobe` on a path: its standard output. -/
  ffprobe : String → Except String String
  /-- Outcome of `json.Unmarshal` of the probe output. -/
  unmarshal : String → Except String FFProbeOutput
  /-- Outcome of `os.CreateTemp("", "tubely-processed-*.mp4")`: the name of the new file. -/
  createTempProcessed : Except String String
  /-- Outcome of `cmd.Run()` of `ffmpeg`. -/
  ffmpegExit : Except String Unit
  /-- The output path after `ffmpeg` ran: absent, or present with a size -/
  ffmpegOutput : Option Nat
  /-- Outcome of `os.Open(processedFilename)`. -/
  openProcessed : Except String Unit
  /-- Outcome of `rand.Read` on the 16-byte buffer. -/
  randRead : Except String (Fin 16 → UInt8)
  /-- Outcome of `processedFile.Stat()`. -/
  statProcessed : Except String Unit
  /-- Outcome of `cfg.s3Client.PutObject`. -/
  putObject : Except String Unit
  /-- Outcome of `cfg.db.UpdateVideo(video)`. -/
  updateVideo : Video → Except String Unit

/-- Append an event to the log. -/
def World.emit (w : World) (e : Event) : World :=
  { w with log := w.log ++ [e] }

/-- Modelled from the spec: `respondWithError` (declared outside the files at hand) writes
one JSON error body with the given status code. -/
def respondWithError (code : Nat) (msg : String) (w : World) : World :=
  w.emit (.errorResponse code msg)

/-- Modelled from the spec: `respondWithJSON` (declared outside the files at hand) writes
the payload with the given status code. -/
def respondWithJSON (code : Nat) (payload : Video) (w : World) : World :=
  w.emit (.jsonResponse code payload)

/-- Go `os.CreateTemp`: on success a new, empty file of the given name exists. -/
def osCreateTemp (outcome : Except String String) (w : World) : World × Except String String :=
  match outcome with
  | .error err => (w, .error err)
  | .ok name => ({ files := (name, 0) :: w.files, log := w.log ++ [.createTemp name] }, .ok name)

/-- Go `os.Remove`: the name is unlinked. -/
def osRemove (name : String) (w : World) : World :=
  { files := w.files.filter (fun f => f.1 ≠ name), log := w.log ++ [.remove name] }

/-- Go `os.Stat`: the size of the file, if it exists. -/
def osStat (name : String) (w : World) : Option Nat :=
  w.files.lookup name

/-- The file `name`, if it exists, now has `size` bytes. -/
def setSize (name : String) (size : Nat) (w : World) : World :=
  { w with files := w.files.map (fun f => if f.1 = name then (name, size) else f) }

/-- The file `name` is absent (`none`) or present with the given size. -/
def setFile (name : String) (state : Option Nat) (w : World) : World :=
  match state with
  | none => { w with files := w.files.filter (fun f => f.1 ≠ name) }
  | some size => { w with files := (name, size) :: w.files.filter (fun f => f.1 ≠ name) }

/-- Embedding of `getUserID`. -/
def getUserID (cfg : ApiConfig) (env : Env) (w : World) : World × Except String UUID :=
  match env.bearerToken with
  | .error err => (respondWithError 401 "Couldn't find JWT" w, .error err)
  | .ok token =>
    match env.validateJWT token cfg.jwtSecret with
    | .error err => (respondWithError 401 "Couldn't validate JWT" w, .error err)
    | .ok userID => (w, .ok userID)

/-- Embedding of `getVideoFromDb`. -/
def getVideoFromDb (env : Env) : Except String Video :=
  match env.pathVideoID with
  | .error err => .error err
  | .ok videoID =>
    match env.getVideo videoID with
    | .error err => .error err
    | .ok video => .ok video

/-- Embedding of `processVideoForFastStart`. -/
def processVideoForFastStart (env : Env) (filename : String) (w : World) :
    World × Except String String :=
  match osCreateTemp env.createTempProcessed w with
  | (w, .error err) =>
    (w, .error ("Failed to create temp file for fast start processing: " ++ err))
  | (w, .ok processedFilename) =>
    match osStat filename w with
    | none => (osRemove processedFilename w, .error "input file not found")
    | some size =>
      if size = 0 then (osRemove processedFilename w, .error "input file is empty")
      else
        let w := setFile processedFilename env.ffmpegOutput
          (w.emit (.ffmpeg filename processedFilename))
        match env.ffmpegExit with
        | .error err => (osRemove processedFilename w, .error ("ffmpeg error: " ++ err))
        | .ok _ =>
          match osStat processedFilename w with
          | none => (osRemove processedFilename w, .error "processed file not found")
          | some size =>
            if size = 0 then (osRemove processedFilename w, .error "processed file is empty")
            else (w, .ok processedFilename)

/-- Lines 106-139 of `handlerUploadVideo`: key construction, publication and the record
update.  The `none` branch is the `panic` of `getAssetFilename`, which writes no response. -/
def publishAndFinalize (cfg : ApiConfig) (env : Env) (video : Video) (mediaType : String)
    (aspectRatio : String) (w : World) : World :=
  let orientation := getVideoOrientation aspectRatio
  match getAssetFilename env.randRead mediaType with
  | none => w
  | some videoFilename =>
    let s3Key := filepathJoin [orientation, videoFilename]
    match env.statProcessed with
    | .error _ => respondWithError 500 "Cannot stat processed file" w
    | .ok _ =>
      let w := w.emit (.putObject cfg.s3Bucket s3Key mediaType)
      match env.putObject with
      | .error _ => respondWithError 500 "Error uploading video to S3" w
      | .ok _ =>
        let objUrl := getCloudFlareUrl cfg s3Key
        let video := { video with videoURL := some objUrl }
        let w := w.emit (.updateVideo video)
        match env.updateVideo video with
        | .error _ => respondWithError 500 "Failed to save video url to db" w
        | .ok _ => respondWithJSON 200 video w

/-- Lines 73-104 of `handlerUploadVideo`: copy, probe, remux and re-open.  The deferred
`os.Remove(processedFile.Name())` is registered only once `os.Open` has succeeded; it runs
when the steps after it return. -/
def stageProbeRemux (cfg : ApiConfig) (env : Env) (video : Video) (mediaType : String)
    (file : List UInt8) (tempName : String) (w : World) : World :=
  match env.copy with
  | .error _ => respondWithError 500 "Failed to write video file" w
  | .ok _ =>
    let w := setSize tempName file.length w
    match env.seek with
    | .error _ => respondWithError 500 "Failed to reset file position" w
    | .ok _ =>
      let w := w.emit (.ffprobe tempName)
      match getVideoAspectRatio env.ffprobe env.unmarshal tempName with
      | .error _ => respondWithError 500 "Error determining video aspect ratio" w
      | .ok aspectRatio =>
        match processVideoForFastStart env tempName w with
        | (w, .error _) => respondWithError 500 "Error processing file for fast start" w
        | (w, .ok processedFilename) =>
          match env.openProcessed with
          | .error _ => respondWithError 500 "Failed to reopen fast start video file" w
          | .ok _ =>
            osRemove processedFilename
              (publishAndFinalize cfg env video mediaType aspectRatio w)

/-- Embedding of `handlerUploadVideo`.  The deferred `os.Remove(tempFile.Name())` is
registered right after the staged file is created; it runs when the steps after it return. -/
def handlerUploadVideo (cfg : ApiConfig) (env : Env) (w : World) : World :=
  match getUserID cfg env w with
  | (w, .error _) => w
  | (w, .ok userID) =>
    match getVideoFromDb env with
    | .error _ => respondWithError 400 "Invalid Video ID" w
    | .ok video =>
      if video.userID ≠ userID then respondWithError 401 "Unauthorized" w
      else
        match env.parseMultipartForm with
        | .error _ => respondWithError 413 "Video too large" w
        | .ok _ =>
          match env.formFile with
          | .error _ => respondWithError 400 "Error retrieving video file" w
          | .ok (file, contentType) =>
            match validateVideoFile env.parseMediaType contentType with
            | .error _ => respondWithError 400 "Invalid format" w
            | .ok mediaType =>
              match osCreateTemp env.createTempUpload w with
              | (w, .error _) => respondWithError 500 "Failed to create video file" w
              | (w, .ok tempName) =>
                osRemove tempName (stageProbeRemux cfg env video mediaType file tempName w)

/-- Whether a file of the given name exists. -/
def World.hasFile (w : World) (name : String) : Bool :=
  w.files.any (fun f => f.1 = name)

/-- The events that reach the object store, the persistence layer or, as a success
response, the caller. -/
def Event.isExternal : Event → Bool
  | .putObject _ _ _ => true
  | .updateVideo _ => true
  | .jsonResponse _ _ => true
  | _ => false

/-- The external events of the run so far, in order. -/
def World.externals (w : World) : List Event :=
  w.log.filter Event.isExternal

/-! ## A concrete run -/

/-- The configuration of the end-to-end scenario. -/
def scenarioCfg : ApiConfig :=
  { jwtSecret := "secret", s3Bucket := "tubely-bucket", s3Region := "us-east-2",
    s3CfDistribution := "cdn.example.com" }

/-- The end-to-end scenario of the specification: the owner uploads a valid MP4, the probe
reports a 1920x1080 video stream, and every collaborator succeeds. -/
def scenarioEnv : Env where
  bearerToken := .ok "token"
  validateJWT := fun _ _ => .ok 7
  pathVideoID := .ok 42
  getVideo := fun videoID =>
    .ok { id := videoID, userID := 7, videoURL := none, thumbnailURL := none }
  parseMultipartForm := .ok ()
  formFile := .ok ([0, 0, 0, 24], "video/mp4")
  parseMediaType := fun contentType => .ok contentType
  createTempUpload := .ok "/tmp/tubely-upload.mp4100"
  copy := .ok ()
  seek := .ok ()
  ffprobe := fun _ => .ok "streams"
  unmarshal := fun _ => .ok { streams := [⟨"video", 1920, 1080⟩, ⟨"audio", 0, 0⟩] }
  createTempProcessed := .ok "/tmp/tubely-processed-200.mp4"
  ffmpegExit := .ok ()
  ffmpegOutput := some 4
  openProcessed := .ok ()
  randRead := .ok (fun i => i.val.toUInt8)
  statProcessed := .ok ()
  putObject := .ok ()
  updateVideo := fun _ => .ok ()

/-- The scenario with `os.Open` on the remuxed file failing. -/
def reopenFailureEnv : Env :=
  { scenarioEnv with openProcessed := .error "open: too many open files" }

/-- The scenario with no record stored for the requested video ID. -/
def absentRecordEnv : Env :=
  { scenarioEnv with getVideo := fun _ => .error "sql: no rows in result set" }

/-- The scenario with a declared content type of `video/quicktime`. -/
def quicktimeEnv : Env :=
  { scenarioEnv with formFile := .ok ([0, 0, 0, 24], "video/quicktime") }

/-- The scenario with a record owned by another user. -/
def otherOwnerEnv : Env :=
  { scenarioEnv with getVideo := fun videoID => .ok (Video.mk videoID 8 none none) }

/-- The record the end-to-end scenario submits and returns. -/
def scenarioResult : Video :=
  { id := 42, userID := 7, thumbnailURL := none,
    videoURL := some "https://cdn.example.com/landscape/AAECAwQFBgcICQoLDA0ODw.mp4" }

/-! ## Rounding lemmas -/

theorem roundHalfEven_cases (q : ℚ) : roundHalfEven q = ⌊q⌋ ∨ roundHalfEven q = ⌊q⌋ + 1 := by
  unfold roundHalfEven
  simp only
  split_ifs <;> simp

theorem roundHalfEven_abs_sub_le (q : ℚ) : |(roundHalfEven q : ℚ) - q| ≤ 1 / 2 := by
  have h1 : (⌊q⌋ : ℚ) ≤ q := Int.floor_le q
  have h2 : q < ⌊q⌋ + 1 := Int.lt_floor_add_one q
  unfold roundHalfEven
  simp only
  rw [abs_le]
  split_ifs with ha hb hc
  · constructor <;> linarith
  · push_cast; constructor <;> linarith
  · have : q - ⌊q⌋ = 1 / 2 := le_antisymm (not_lt.mp hb) (not_lt.mp ha)
    constructor <;> linarith
  · have : q - ⌊q⌋ = 1 / 2 := le_antisymm (not_lt.mp hb) (not_lt.mp ha)
    push_cast; constructor <;> linarith

theorem roundHalfEven_intCast (z : ℤ) : roundHalfEven (z : ℚ) = z := by
  unfold roundHalfEven
  simp

theorem roundF64_zero : roundF64 0 = 0 := by
  simp [roundF64]

/-- The unit in the last place used for `x` is at most `|x| / 2^52`. -/
theorem ulp_le (x : ℚ) (hx : x ≠ 0) : (2 : ℚ) ^ (Int.log 2 |x| - 52) ≤ |x| / 2 ^ 52 := by
  have hpos : 0 < |x| := abs_pos.mpr hx
  have h := Int.zpow_log_le_self (b := 2) (r := |x|) (by norm_num) hpos
  rw [zpow_sub₀ (by norm_num : (2 : ℚ) ≠ 0)]
  have : (2 : ℚ) ^ (52 : ℤ) = 2 ^ 52 := by norm_cast
  rw [this]
  push_cast at h
  exact div_le_div_of_nonneg_right h (by positivity)

/-- Relative error of one rounding: at most `2^-53`. -/
theorem roundF64_abs_sub_le (x : ℚ) : |roundF64 x - x| ≤ |x| / 2 ^ 53 := by
  by_cases hx : x = 0
  · subst hx; simp [roundF64_zero]
  · unfold roundF64
    simp only [hx, if_false]
    set u : ℚ := 2 ^ (Int.log 2 |x| - 52) with hu
    have hupos : 0 < u := by positivity
    have hule : u ≤ |x| / 2 ^ 52 := ulp_le x hx
    have h := roundHalfEven_abs_sub_le (x / u)
    have key : (roundHalfEven (x / u) : ℚ) * u - x = ((roundHalfEven (x / u) : ℚ) - x / u) * u := by
      field_simp
    rw [key, abs_mul, abs_of_pos hupos]
    calc |(roundHalfEven (x / u) : ℚ) - x / u| * u ≤ 1 / 2 * u :=
          mul_le_mul_of_nonneg_right h hupos.le
      _ ≤ 1 / 2 * (|x| / 2 ^ 52) := by linarith
      _ = |x| / 2 ^ 53 := by ring

/-- One rounding as a relative perturbation: `roundF64 x = x * (1 + δ)` with `|δ| ≤ 2^-53`. -/
theorem roundF64_rel (x : ℚ) : ∃ δ : ℚ, |δ| ≤ 1 / 2 ^ 53 ∧ roundF64 x = x * (1 + δ) := by
  by_cases hx : x = 0
  · exact ⟨0, by norm_num, by simp [hx, roundF64_zero]⟩
  · refine ⟨(roundF64 x - x) / x, ?_, by field_simp⟩
    rw [abs_div, div_le_iff₀ (abs_pos.mpr hx)]
    have h := roundF64_abs_sub_le x
    calc |roundF64 x - x| ≤ |x| / 2 ^ 53 := h
      _ = 1 / 2 ^ 53 * |x| := by ring

/-- The computed ratio `float64(w) / float64(h)` is the exact ratio up to a relative
perturbation of at most `2^-51` (three roundings). -/
theorem ratio_rel (w h : ℚ) (hh : h ≠ 0) :
    ∃ η : ℚ, |η| ≤ 1 / 2 ^ 51 ∧ roundF64 (roundF64 w / roundF64 h) = w / h * (1 + η) := by
  obtain ⟨a, ha, hwa⟩ := roundF64_rel w
  obtain ⟨b, hb, hhb⟩ := roundF64_rel h
  obtain ⟨c, hc, hrc⟩ := roundF64_rel (roundF64 w / roundF64 h)
  rw [abs_le] at ha hb hc
  have hb1 : 0 < 1 + b := by linarith [hb.1, (by norm_num : (1 : ℚ) / 2 ^ 53 < 1)]
  have ha1 : 0 ≤ 1 + a := by linarith [ha.1, (by norm_num : (1 : ℚ) / 2 ^ 53 < 1)]
  have hc1 : 0 ≤ 1 + c := by linarith [hc.1, (by norm_num : (1 : ℚ) / 2 ^ 53 < 1)]
  refine ⟨(1 + a) * (1 + c) / (1 + b) - 1, ?_, ?_⟩
  · have hup : (1 + a) * (1 + c) ≤ (1 + 1 / 2 ^ 53) * (1 + 1 / 2 ^ 53) :=
      mul_le_mul (by linarith [ha.2]) (by linarith [hc.2]) hc1 (by norm_num)
    have hlo : (1 - 1 / 2 ^ 53) * (1 - 1 / 2 ^ 53) ≤ (1 + a) * (1 + c) :=
      mul_le_mul (by linarith [ha.1]) (by linarith [hc.1]) (by norm_num) ha1
    rw [abs_le]
    constructor
    · rw [le_sub_iff_add_le, le_div_iff₀ hb1]
      have : (-(1 / 2 ^ 51) + 1) * (1 + b) ≤ (-(1 / 2 ^ 51) + 1) * (1 + 1 / 2 ^ 53) :=
        mul_le_mul_of_nonneg_left (by linarith [hb.2]) (by norm_num)
      have hnum : (-(1 / 2 ^ 51) + 1) * (1 + 1 / 2 ^ 53) ≤
          ((1 : ℚ) - 1 / 2 ^ 53) * (1 - 1 / 2 ^ 53) := by norm_num
      linarith
    · rw [sub_le_iff_le_add, div_le_iff₀ hb1]
      have : (1 / 2 ^ 51 + 1) * (1 - 1 / 2 ^ 53) ≤ (1 / 2 ^ 51 + 1) * (1 + b) :=
        mul_le_mul_of_nonneg_left (by linarith [hb.1]) (by norm_num)
      have hnum : ((1 : ℚ) + 1 / 2 ^ 53) * (1 + 1 / 2 ^ 53) ≤
          (1 / 2 ^ 51 + 1) * (1 - 1 / 2 ^ 53) := by norm_num
      linarith
  · rw [hrc, hwa, hhb]
    field_simp
    ring

/-- The float64 value of the constant `0.05`. -/
theorem tolerance_eq : roundF64 (5 / 100) = 3602879701896397 / 72057594037927936 := by
  decide!

/-- The computed deviation is the exact deviation, perturbed additively by at most
`(4 * D + 5) / 2^53` and then multiplicatively by a factor within three roundings of `1`. -/
theorem floatDeviation_bounds (w h : ℤ) (hh : h ≠ 0) (t : ℚ) (ht : 0 < t) :
    ∃ A κ : ℚ, floatDeviation w h t = A * κ ∧ 0 ≤ A ∧
      |A - exactDeviation w h t| ≤ (4 * exactDeviation w h t + 5) / 2 ^ 53 ∧
      (1 - 1 / 2 ^ 53) * (1 - 1 / 2 ^ 53) / (1 + 1 / 2 ^ 53) ≤ κ ∧
      κ ≤ (1 + 1 / 2 ^ 53) * (1 + 1 / 2 ^ 53) / (1 - 1 / 2 ^ 53) := by
  have hhq : (h : ℚ) ≠ 0 := by exact_mod_cast hh
  obtain ⟨η, hη, hr⟩ := ratio_rel (w : ℚ) (h : ℚ) hhq
  obtain ⟨l, hl, hL⟩ := roundF64_rel t
  obtain ⟨a, ha, hs⟩ := roundF64_rel (roundF64 (roundF64 w / roundF64 h) - roundF64 t)
  obtain ⟨b, hb, hq⟩ := roundF64_rel
    (|roundF64 (roundF64 (roundF64 w / roundF64 h) - roundF64 t)| / roundF64 t)
  have hu : (1 : ℚ) / 2 ^ 53 < 1 := by norm_num
  have hη' := abs_le.mp hη
  have hl' := abs_le.mp hl
  have ha' := abs_le.mp ha
  have hb' := abs_le.mp hb
  have hl1 : 0 < 1 + l := by linarith [hl'.1]
  have ha1 : 0 < 1 + a := by linarith [ha'.1]
  have hb1 : 0 < 1 + b := by linarith [hb'.1]
  set ρ : ℚ := (w : ℚ) / h with hρ
  set r : ℚ := roundF64 (roundF64 w / roundF64 h) with hrdef
  set D : ℚ := exactDeviation w h t with hD
  have hDdef : D = |ρ - t| / t := rfl
  have hD0 : 0 ≤ D := by rw [hDdef]; positivity
  refine ⟨|r - roundF64 t| / t, (1 + a) * (1 + b) / (1 + l), ?_, by positivity, ?_, ?_, ?_⟩
  · unfold floatDeviation
    rw [hq, hs, abs_mul, abs_of_pos ha1, hL]
    field_simp
    ring
  · -- additive perturbation
    have hsplit : r - roundF64 t = (ρ - t) + (ρ * η - t * l) := by rw [hr, hL]; ring
    have h1 : |(|r - roundF64 t| - |ρ - t|)| ≤ |ρ * η - t * l| := by
      have := abs_abs_sub_abs_le_abs_sub (r - roundF64 t) (ρ - t)
      rw [hsplit] at this ⊢
      simpa using this
    have hρabs : |ρ| ≤ t + |ρ - t| := by
      have := abs_add (ρ - t) t
      rw [sub_add_cancel, abs_of_pos ht] at this
      linarith
    have h2 : |ρ * η - t * l| ≤ (t + |ρ - t|) * (1 / 2 ^ 51) + t * (1 / 2 ^ 53) := by
      calc |ρ * η - t * l| ≤ |ρ * η| + |t * l| := abs_sub _ _
        _ = |ρ| * |η| + t * |l| := by rw [abs_mul, abs_mul, abs_of_pos ht]
        _ ≤ (t + |ρ - t|) * (1 / 2 ^ 51) + t * (1 / 2 ^ 53) :=
            add_le_add (mul_le_mul hρabs hη (abs_nonneg _) (by positivity))
              (mul_le_mul_of_nonneg_left hl ht.le)
    have h3 : |r - roundF64 t| / t - D = (|r - roundF64 t| - |ρ - t|) / t := by
      rw [hDdef]; ring
    rw [h3, abs_div, abs_of_pos ht, div_le_iff₀ ht]
    have h4 : (t + |ρ - t|) * (1 / 2 ^ 51) + t * (1 / 2 ^ 53) = (4 * D + 5) / 2 ^ 53 * t := by
      rw [hDdef]; field_simp; ring
    linarith
  · rw [div_le_iff₀ (by norm_num), div_mul_eq_mul_div, le_div_iff₀ hl1]
    have hlo : (1 - 1 / 2 ^ 53) * (1 - 1 / 2 ^ 53) ≤ (1 + a) * (1 + b) :=
      mul_le_mul (by linarith [ha'.1]) (by linarith [hb'.1]) (by norm_num) ha1.le
    calc (1 - 1 / 2 ^ 53) * (1 - 1 / 2 ^ 53) * (1 + l)
        ≤ (1 - 1 / 2 ^ 53) * (1 - 1 / 2 ^ 53) * (1 + 1 / 2 ^ 53) :=
          mul_le_mul_of_nonneg_left (by linarith [hl'.2]) (by norm_num)
      _ ≤ (1 + a) * (1 + b) * (1 + 1 / 2 ^ 53) :=
          mul_le_mul_of_nonneg_right hlo (by norm_num)
  · rw [div_le_iff₀ hl1, div_mul_eq_mul_div, le_div_iff₀ (by norm_num)]
    have hup : (1 + a) * (1 + b) ≤ (1 + 1 / 2 ^ 53) * (1 + 1 / 2 ^ 53) :=
      mul_le_mul (by linarith [ha'.2]) (by linarith [hb'.2]) hb1.le (by norm_num)
    calc (1 + a) * (1 + b) * (1 - 1 / 2 ^ 53)
        ≤ (1 + 1 / 2 ^ 53) * (1 + 1 / 2 ^ 53) * (1 - 1 / 2 ^ 53) :=
          mul_le_mul_of_nonneg_right hup (by norm_num)
      _ ≤ (1 + 1 / 2 ^ 53) * (1 + 1 / 2 ^ 53) * (1 + l) :=
          mul_le_mul_of_nonneg_left (by linarith [hl'.1]) (by norm_num)

/-- An exact deviation at least `2^-50` below `0.05` passes the float64 test. -/
theorem floatDeviation_le_tolerance (w h : ℤ) (hh : h ≠ 0) (t : ℚ) (ht : 0 < t)
    (hD : exactDeviation w h t ≤ 1 / 20 - 1 / 2 ^ 50) :
    floatDeviation w h t ≤ roundF64 (5 / 100) := by
  obtain ⟨A, κ, hF, hA0, hA, -, hκ⟩ := floatDeviation_bounds w h hh t ht
  have hA' := (abs_le.mp hA).2
  have hA1 : A ≤ (1 / 20 - 1 / 2 ^ 50) * (1 + 4 / 2 ^ 53) + 5 / 2 ^ 53 := by
    have : exactDeviation w h t * (1 + 4 / 2 ^ 53) ≤ (1 / 20 - 1 / 2 ^ 50) * (1 + 4 / 2 ^ 53) :=
      mul_le_mul_of_nonneg_right hD (by norm_num)
    linarith
  rw [hF, tolerance_eq]
  calc A * κ ≤ A * ((1 + 1 / 2 ^ 53) * (1 + 1 / 2 ^ 53) / (1 - 1 / 2 ^ 53)) :=
        mul_le_mul_of_nonneg_left hκ hA0
    _ ≤ ((1 / 20 - 1 / 2 ^ 50) * (1 + 4 / 2 ^ 53) + 5 / 2 ^ 53) *
          ((1 + 1 / 2 ^ 53) * (1 + 1 / 2 ^ 53) / (1 - 1 / 2 ^ 53)) :=
        mul_le_mul_of_nonneg_right hA1 (by norm_num)
    _ ≤ 3602879701896397 / 72057594037927936 := by norm_num

/-- An exact deviation at least `2^-50` above `0.05` fails the float64 test. -/
theorem tolerance_lt_floatDeviation (w h : ℤ) (hh : h ≠ 0) (t : ℚ) (ht : 0 < t)
    (hD : 1 / 20 + 1 / 2 ^ 50 ≤ exactDeviation w h t) :
    roundF64 (5 / 100) < floatDeviation w h t := by
  obtain ⟨A, κ, hF, -, hA, hκ, -⟩ := floatDeviation_bounds w h hh t ht
  have hA' := (abs_le.mp hA).1
  have hA1 : (1 / 20 + 1 / 2 ^ 50) * (1 - 4 / 2 ^ 53) - 5 / 2 ^ 53 ≤ A := by
    have : (1 / 20 + 1 / 2 ^ 50) * (1 - 4 / 2 ^ 53) ≤ exactDeviation w h t * (1 - 4 / 2 ^ 53) :=
      mul_le_mul_of_nonneg_right hD (by norm_num)
    linarith
  have hA0 : 0 ≤ A := le_trans (by norm_num) hA1
  rw [hF, tolerance_eq]
  calc (3602879701896397 : ℚ) / 72057594037927936
      < ((1 / 20 + 1 / 2 ^ 50) * (1 - 4 / 2 ^ 53) - 5 / 2 ^ 53) *
          ((1 - 1 / 2 ^ 53) * (1 - 1 / 2 ^ 53) / (1 + 1 / 2 ^ 53)) := by norm_num
    _ ≤ A * ((1 - 1 / 2 ^ 53) * (1 - 1 / 2 ^ 53) / (1 + 1 / 2 ^ 53)) :=
        mul_le_mul_of_nonneg_right hA1 (by norm_num)
    _ ≤ A * κ := mul_le_mul_of_nonneg_left hκ hA0

/-! ## The classifier in terms of the computed deviation -/

theorem calculateAspectRatio_zero (w h : ℤ) (hz : w = 0 ∨ h = 0) :
    calculateAspectRatio w h = "other" := by
  unfold calculateAspectRatio
  rw [if_pos hz]

theorem calculateAspectRatio_eq (w h : ℤ) (hw : w ≠ 0) (hh : h ≠ 0) :
    calculateAspectRatio w h =
      if floatDeviation w h (16 / 9) ≤ roundF64 (5 / 100) then "16:9"
      else if floatDeviation w h (9 / 16) ≤ roundF64 (5 / 100) then "9:16"
      else "other" := by
  unfold calculateAspectRatio floatDeviation
  rw [if_neg (by simp [hw, hh])]

theorem classify_eq (w h : ℤ) (hw : w ≠ 0) (hh : h ≠ 0) :
    classify w h =
      if floatDeviation w h (16 / 9) ≤ roundF64 (5 / 100) then "landscape"
      else if floatDeviation w h (9 / 16) ≤ roundF64 (5 / 100) then "portrait"
      else "other" := by
  unfold classify
  rw [calculateAspectRatio_eq w h hw hh]
  split_ifs <;> decide

theorem classify_zero (w h : ℤ) (hz : w = 0 ∨ h = 0) : classify w h = "other" := by
  unfold classify
  rw [calculateAspectRatio_zero w h hz]
  decide

/-- Integers of magnitude below `2^53` are float64 values: the conversion is exact. -/
theorem roundF64_intCast (n : ℤ) (hn : |n| < 2 ^ 53) : roundF64 (n : ℚ) = n := by
  by_cases h0 : n = 0
  · subst h0; simp [roundF64_zero]
  · have hq : (n : ℚ) ≠ 0 := by exact_mod_cast h0
    have hpos : 0 < |(n : ℚ)| := abs_pos.mpr hq
    have hlt : |(n : ℚ)| < ((2 : ℕ) : ℚ) ^ (53 : ℤ) := by
      have : ((|n| : ℤ) : ℚ) < ((2 ^ 53 : ℤ) : ℚ) := by exact_mod_cast hn
      rw [Int.cast_abs] at this
      calc |(n : ℚ)| < ((2 ^ 53 : ℤ) : ℚ) := this
        _ = ((2 : ℕ) : ℚ) ^ (53 : ℤ) := by norm_num
    have he : Int.log 2 |(n : ℚ)| < 53 := (Int.lt_zpow_iff_log_lt (by norm_num) hpos).mp hlt
    unfold roundF64
    simp only [hq, if_false]
    obtain ⟨k, hk⟩ : ∃ k : ℕ, Int.log 2 |(n : ℚ)| - 52 = -(k : ℤ) :=
      ⟨(52 - Int.log 2 |(n : ℚ)|).toNat, by omega⟩
    rw [hk, zpow_neg, zpow_natCast]
    have hcast : (n : ℚ) / ((2 : ℚ) ^ k)⁻¹ = ((n * 2 ^ k : ℤ) : ℚ) := by
      push_cast
      field_simp
    rw [hcast, roundHalfEven_intCast]
    push_cast
    field_simp

/-- On exactly representable dimensions the computed deviation depends on the ratio only. -/
theorem floatDeviation_congr (w h p q : ℤ) (t : ℚ) (hw : 0 < w) (hh : 0 < h) (hp : 0 < p)
    (hq : 0 < q) (hw53 : w < 2 ^ 53) (hh53 : h < 2 ^ 53) (hp53 : p < 2 ^ 53)
    (hq53 : q < 2 ^ 53) (hratio : (w : ℚ) / h = (p : ℚ) / q) :
    floatDeviation w h t = floatDeviation p q t := by
  unfold floatDeviation
  rw [roundF64_intCast w (by rw [abs_of_pos hw]; exact hw53),
    roundF64_intCast h (by rw [abs_of_pos hh]; exact hh53),
    roundF64_intCast p (by rw [abs_of_pos hp]; exact hp53),
    roundF64_intCast q (by rw [abs_of_pos hq]; exact hq53), hratio]

/-! ## Orientation classifier: claims -/

theorem classify_landscape_of_margin (w h : ℤ) (hw : w ≠ 0) (hh : h ≠ 0)
    (hD : exactDeviation w h (16 / 9) ≤ 1 / 20 - 1 / 2 ^ 50) : classify w h = "landscape" := by
  rw [classify_eq w h hw hh,
    if_pos (floatDeviation_le_tolerance w h hh (16 / 9) (by norm_num) hD)]

theorem classify_portrait_of_margin (w h : ℤ) (hw : w ≠ 0) (hh : h ≠ 0)
    (hL : 1 / 20 + 1 / 2 ^ 50 ≤ exactDeviation w h (16 / 9))
    (hP : exactDeviation w h (9 / 16) ≤ 1 / 20 - 1 / 2 ^ 50) : classify w h = "portrait" := by
  rw [classify_eq w h hw hh,
    if_neg (not_le.mpr (tolerance_lt_floatDeviation w h hh (16 / 9) (by norm_num) hL)),
    if_pos (floatDeviation_le_tolerance w h hh (9 / 16) (by norm_num) hP)]

theorem classify_other_of_margin (w h : ℤ) (hw : w ≠ 0) (hh : h ≠ 0)
    (hL : 1 / 20 + 1 / 2 ^ 50 ≤ exactDeviation w h (16 / 9))
    (hP : 1 / 20 + 1 / 2 ^ 50 ≤ exactDeviation w h (9 / 16)) : classify w h = "other" := by
  rw [classify_eq w h hw hh,
    if_neg (not_le.mpr (tolerance_lt_floatDeviation w h hh (16 / 9) (by norm_num) hL)),
    if_neg (not_le.mpr (tolerance_lt_floatDeviation w h hh (9 / 16) (by norm_num) hP))]

/-- C6: for every integer `k > 0` the classifier returns `"landscape"` for `(16k, 9k)` and
`"portrait"` for `(9k, 16k)`, however large `k` is (the three roundings of the ratio stay far
inside the 5% tolerance). -/
theorem classify_multiples (k : ℤ) (hk : 0 < k) :
    classify (16 * k) (9 * k) = "landscape" ∧ classify (9 * k) (16 * k) = "portrait" := by
  have hkq : (k : ℚ) ≠ 0 := by exact_mod_cast hk.ne'
  have h1 : ((16 * k : ℤ) : ℚ) / ((9 * k : ℤ) : ℚ) = 16 / 9 := by
    push_cast; field_simp; ring
  have h2 : ((9 * k : ℤ) : ℚ) / ((16 * k : ℤ) : ℚ) = 9 / 16 := by
    push_cast; field_simp; ring
  constructor
  · apply classify_landscape_of_margin _ _ (by omega) (by omega)
    unfold exactDeviation
    rw [h1]
    norm_num
  · apply classify_portrait_of_margin _ _ (by omega) (by omega)
    · unfold exactDeviation
      rw [h2]
      norm_num [abs_of_neg]
    · unfold exactDeviation
      rw [h2]
      norm_num

/-- Witness for C6 at `k = 120`: 1920x1080 is landscape and 1080x1920 is portrait. -/
theorem classify_multiples_witness :
    (0 : ℤ) < 120 ∧
      classify (16 * 120) (9 * 120) = "landscape" ∧ classify (9 * 120) (16 * 120) = "portrait" :=
  ⟨by decide, classify_multiples 120 (by decide)⟩

/-- C1, as stated, fails at 56x30: the exact relative deviation from 16/9 is `0.05`, within
the tolerance, yet the float64 computation yields a value just above `0.05` and the
classifier does not return `"landscape"`. -/
theorem classify_exact_boundary_counterexample :
    exactDeviation 56 30 (16 / 9) ≤ 5 / 100 ∧ classify 56 30 ≠ "landscape" := by
  constructor
  · unfold exactDeviation; norm_num [abs_of_pos]
  · decide!

/-- C1 (amended): the classifier returns `"other"` when either dimension is zero; otherwise
it returns `"landscape"` exactly when the float64 evaluation of `|ratio − 16/9| / (16/9)` is
at most the float64 `0.05`, `"portrait"` exactly when that test fails and the float64
evaluation of `|ratio − 9/16| / (9/16)` is at most the float64 `0.05`, and `"other"` exactly
when both tests fail.  Each float64 test agrees with the exact-arithmetic test whenever the
exact relative deviation is at least `2^-50` away from `0.05`. -/
theorem classify_spec (w h : ℤ) :
    ((w = 0 ∨ h = 0) → classify w h = "other") ∧
    (w ≠ 0 ∧ h ≠ 0 →
      (classify w h = "landscape" ↔ floatDeviation w h (16 / 9) ≤ roundF64 (5 / 100)) ∧
      (classify w h = "portrait" ↔
        ¬ floatDeviation w h (16 / 9) ≤ roundF64 (5 / 100) ∧
          floatDeviation w h (9 / 16) ≤ roundF64 (5 / 100)) ∧
      (classify w h = "other" ↔
        ¬ floatDeviation w h (16 / 9) ≤ roundF64 (5 / 100) ∧
          ¬ floatDeviation w h (9 / 16) ≤ roundF64 (5 / 100)) ∧
      (∀ t : ℚ, 0 < t → exactDeviation w h t ≤ 5 / 100 - 1 / 2 ^ 50 →
        floatDeviation w h t ≤ roundF64 (5 / 100)) ∧
      (∀ t : ℚ, 0 < t → 5 / 100 + 1 / 2 ^ 50 ≤ exactDeviation w h t →
        ¬ floatDeviation w h t ≤ roundF64 (5 / 100))) := by
  refine ⟨classify_zero w h, ?_⟩
  rintro ⟨hw, hh⟩
  rw [classify_eq w h hw hh]
  refine ⟨?_, ?_, ?_, ?_, ?_⟩
  · split_ifs <;> simp [*]
  · split_ifs <;> simp [*]
  · split_ifs <;> simp [*]
  · intro t ht hD
    exact floatDeviation_le_tolerance w h hh t ht (by linarith)
  · intro t ht hD
    exact not_le.mpr (tolerance_lt_floatDeviation w h hh t ht (by linarith))

/-- Witness for C1 (amended) at 1920x1080: the exact deviation from 16/9 is zero, so the
float64 test passes and the classifier returns `"landscape"`. -/
theorem classify_spec_witness : classify 1920 1080 = "landscape" :=
  ((classify_spec 1920 1080).2 ⟨by decide, by decide⟩).1.mpr
    (((classify_spec 1920 1080).2 ⟨by decide, by decide⟩).2.2.2.1 (16 / 9) (by norm_num)
      (by unfold exactDeviation; norm_num))

/-- C7, as stated, fails at 28x15: the ratio is exactly `(16/9) * 1.05`, on the upper
landscape boundary, and the classifier returns `"other"`. -/
theorem classify_upper_boundary_counterexample :
    (0 : ℤ) < 28 ∧ (0 : ℤ) < 15 ∧ ((28 : ℤ) : ℚ) / ((15 : ℤ) : ℚ) = 16 / 9 * (105 / 100) ∧
      classify 28 15 ≠ "landscape" := by
  refine ⟨by decide, by decide, by norm_num, ?_⟩
  decide!

/-- The computed deviations at the four boundary ratios, against the float64 `0.05`. -/
theorem floatDeviation_boundary :
    floatDeviation 76 45 (16 / 9) < roundF64 (5 / 100) ∧
    (roundF64 (5 / 100) < floatDeviation 189 320 (16 / 9) ∧
      floatDeviation 189 320 (9 / 16) < roundF64 (5 / 100)) ∧
    (roundF64 (5 / 100) < floatDeviation 171 320 (16 / 9) ∧
      floatDeviation 171 320 (9 / 16) < roundF64 (5 / 100)) ∧
    (roundF64 (5 / 100) < floatDeviation 28 15 (16 / 9) ∧
      roundF64 (5 / 100) < floatDeviation 28 15 (9 / 16)) := by
  decide!

/-- C7 (amended): for positive dimensions below `2^53` (exactly representable in float64),
a ratio exactly `(16/9) * 0.95` is classified `"landscape"`, a ratio exactly `(9/16) * 1.05`
or `(9/16) * 0.95` is classified `"portrait"`, and a ratio exactly `(16/9) * 1.05` is
classified `"other"`.  At none of these ratios is the float64-computed deviation equal to
the float64 `0.05`: it is strictly below it in the three cases inside a bucket and strictly
above it at `(16/9) * 1.05`, so the outcome at an exact boundary ratio is fixed by the
float64 rounding and not by whether the comparison is inclusive. -/
theorem classify_boundary (w h : ℤ) (hw : 0 < w) (hh : 0 < h) (hw53 : w < 2 ^ 53)
    (hh53 : h < 2 ^ 53) :
    ((w : ℚ) / h = 16 / 9 * (95 / 100) →
      floatDeviation w h (16 / 9) < roundF64 (5 / 100) ∧ classify w h = "landscape") ∧
    ((w : ℚ) / h = 9 / 16 * (105 / 100) →
      roundF64 (5 / 100) < floatDeviation w h (16 / 9) ∧
        floatDeviation w h (9 / 16) < roundF64 (5 / 100) ∧ classify w h = "portrait") ∧
    ((w : ℚ) / h = 9 / 16 * (95 / 100) →
      roundF64 (5 / 100) < floatDeviation w h (16 / 9) ∧
        floatDeviation w h (9 / 16) < roundF64 (5 / 100) ∧ classify w h = "portrait") ∧
    ((w : ℚ) / h = 16 / 9 * (105 / 100) →
      roundF64 (5 / 100) < floatDeviation w h (16 / 9) ∧
        roundF64 (5 / 100) < floatDeviation w h (9 / 16) ∧ classify w h = "other") := by
  obtain ⟨b1, ⟨b2, b3⟩, ⟨b4, b5⟩, b6, b7⟩ := floatDeviation_boundary
  have hcongr : ∀ (p q : ℤ) (t : ℚ), 0 < p → 0 < q → p < 2 ^ 53 → q < 2 ^ 53 →
      (w : ℚ) / h = (p : ℚ) / q → floatDeviation w h t = floatDeviation p q t :=
    fun p q t hp hq hp53 hq53 hr =>
      floatDeviation_congr w h p q t hw hh hp hq hw53 hh53 hp53 hq53 hr
  refine ⟨?_, ?_, ?_, ?_⟩
  · intro hr
    have e : ∀ t, floatDeviation w h t = floatDeviation 76 45 t := fun t =>
      hcongr 76 45 t (by decide) (by decide) (by decide) (by decide) (by rw [hr]; norm_num)
    rw [classify_eq w h hw.ne' hh.ne', e, if_pos b1.le]
    exact ⟨b1, rfl⟩
  · intro hr
    have e : ∀ t, floatDeviation w h t = floatDeviation 189 320 t := fun t =>
      hcongr 189 320 t (by decide) (by decide) (by decide) (by decide) (by rw [hr]; norm_num)
    rw [classify_eq w h hw.ne' hh.ne', e, e, if_neg (not_le.mpr b2), if_pos b3.le]
    exact ⟨b2, b3, rfl⟩
  · intro hr
    have e : ∀ t, floatDeviation w h t = floatDeviation 171 320 t := fun t =>
      hcongr 171 320 t (by decide) (by decide) (by decide) (by decide) (by rw [hr]; norm_num)
    rw [classify_eq w h hw.ne' hh.ne', e, e, if_neg (not_le.mpr b4), if_pos b5.le]
    exact ⟨b4, b5, rfl⟩
  · intro hr
    have e : ∀ t, floatDeviation w h t = floatDeviation 28 15 t := fun t =>
      hcongr 28 15 t (by decide) (by decide) (by decide) (by decide) (by rw [hr]; norm_num)
    rw [classify_eq w h hw.ne' hh.ne', e, e, if_neg (not_le.mpr b6), if_neg (not_le.mpr b7)]
    exact ⟨b6, b7, rfl⟩

/-- Witness for C7 (amended) at 152x90, whose ratio is exactly `(16/9) * 0.95`. -/
theorem classify_boundary_witness :
    (0 : ℤ) < 152 ∧ (0 : ℤ) < 90 ∧ (152 : ℤ) < 2 ^ 53 ∧ (90 : ℤ) < 2 ^ 53 ∧
      floatDeviation 152 90 (16 / 9) < roundF64 (5 / 100) ∧ classify 152 90 = "landscape" :=
  ⟨by decide, by decide, by decide, by decide,
    (classify_boundary 152 90 (by decide) (by decide) (by decide) (by decide)).1 (by norm_num)⟩

/-! ## Metadata probe: claims -/

theorem selectVideoStream_append (pre : List Stream) (rest : List Stream)
    (hpre : ∀ x ∈ pre, x.codecType ≠ "video") :
    selectVideoStream (pre ++ rest) = selectVideoStream rest := by
  induction pre with
  | nil => rfl
  | cons x xs ih =>
    have hx : x.codecType ≠ "video" := hpre x (List.mem_cons_self _ _)
    simp only [List.cons_append, selectVideoStream, hx, if_false]
    exact ih (fun y hy => hpre y (List.mem_cons_of_mem _ hy))

theorem selectVideoStream_error_iff (streams : List Stream) :
    (∃ err, selectVideoStream streams = .error err) ↔
      ∀ x ∈ streams, x.codecType ≠ "video" := by
  induction streams with
  | nil => simp [selectVideoStream]
  | cons x xs ih =>
    by_cases hx : x.codecType = "video"
    · simp [selectVideoStream, hx]
    · simp [selectVideoStream, hx, ih]

/-- C8: once the probe output has been parsed, `getVideoAspectRatio` returns
`calculateAspectRatio` of the width and height of the first stream whose codec type is
`"video"`, whatever streams follow it, and it fails if and only if no stream has codec type
`"video"` (in particular for an empty list). -/
theorem getVideoAspectRatio_selects (run : String → Except String String)
    (unmarshal : String → Except String FFProbeOutput) (filePath stdout : String)
    (result : FFProbeOutput) (hrun : run filePath = .ok stdout)
    (hparse : unmarshal stdout = .ok result) :
    (∀ (pre : List Stream) (s : Stream) (post : List Stream),
      result.streams = pre ++ s :: post → (∀ x ∈ pre, x.codecType ≠ "video") →
      s.codecType = "video" →
      getVideoAspectRatio run unmarshal filePath = .ok (calculateAspectRatio s.width s.height)) ∧
    ((∃ err, getVideoAspectRatio run unmarshal filePath = .error err) ↔
      ∀ x ∈ result.streams, x.codecType ≠ "video") ∧
    (result.streams = [] → ∃ err, getVideoAspectRatio run unmarshal filePath = .error err) := by
  have hsel : getVideoAspectRatio run unmarshal filePath = selectVideoStream result.streams := by
    simp [getVideoAspectRatio, hrun, hparse]
  rw [hsel]
  refine ⟨?_, selectVideoStream_error_iff _, ?_⟩
  · intro pre s post hs hpre hvid
    rw [hs, selectVideoStream_append pre (s :: post) hpre]
    simp [selectVideoStream, hvid]
  · intro hnil
    rw [hnil]
    exact ⟨_, rfl⟩

/-- Witness for C8: an audio stream followed by a 1920x1080 video stream and a second,
portrait video stream; the first video stream decides. -/
theorem getVideoAspectRatio_selects_witness :
    getVideoAspectRatio (fun _ => .ok "report")
      (fun _ => .ok ⟨[⟨"audio", 0, 0⟩, ⟨"video", 1920, 1080⟩, ⟨"video", 1080, 1920⟩]⟩) "in.mp4" =
      .ok (calculateAspectRatio 1920 1080) :=
  (getVideoAspectRatio_selects (fun _ => .ok "report")
    (fun _ => .ok ⟨[⟨"audio", 0, 0⟩, ⟨"video", 1920, 1080⟩, ⟨"video", 1080, 1920⟩]⟩)
    "in.mp4" "report" ⟨[⟨"audio", 0, 0⟩, ⟨"video", 1920, 1080⟩, ⟨"video", 1080, 1920⟩]⟩
    rfl rfl).1 [⟨"audio", 0, 0⟩] ⟨"video", 1920, 1080⟩ [⟨"video", 1080, 1920⟩] rfl
    (by decide) rfl

/-! ## Asset names and object keys: lemmas -/

theorem splitChars_of_not_mem (sep : Char) (l : List Char) (h : sep ∉ l) :
    splitChars sep l = [l] := by
  induction l with
  | nil => rfl
  | cons c cs ih =>
    have hc : c ≠ sep := fun hc => h (hc ▸ List.mem_cons_self _ _)
    have hcs : sep ∉ cs := fun hm => h (List.mem_cons_of_mem _ hm)
    simp [splitChars, hc, ih hcs]

theorem splitChars_append (sep : Char) (a b : List Char) (h : sep ∉ a) :
    splitChars sep (a ++ sep :: b) = a :: splitChars sep b := by
  induction a with
  | nil => simp [splitChars]
  | cons c cs ih =>
    have hc : c ≠ sep := fun hc => h (hc ▸ List.mem_cons_self _ _)
    have hcs : sep ∉ cs := fun hm => h (List.mem_cons_of_mem _ hm)
    simp [splitChars, hc, ih hcs]

/-- A relative two-element path whose elements are real names is already clean. -/
theorem cleanChars_two (a b : List Char) (ha : '/' ∉ a) (hb : '/' ∉ b)
    (ha1 : a ≠ []) (ha2 : a ≠ ['.']) (ha3 : a ≠ ['.', '.'])
    (hb1 : b ≠ []) (hb2 : b ≠ ['.']) (hb3 : b ≠ ['.', '.']) :
    cleanChars (a ++ '/' :: b) = a ++ '/' :: b := by
  have hhead : (a ++ '/' :: b).head? ≠ some '/' := by
    cases a with
    | nil => exact absurd rfl ha1
    | cons c cs =>
      intro hc
      simp at hc
      exact ha (hc ▸ List.mem_cons_self _ _)
  have hne : a ++ '/' :: b ≠ [] := by simp
  unfold cleanChars
  simp only [hne, if_false, hhead, decide_False, Bool.false_eq_true]
  rw [splitChars_append '/' a b ha, splitChars_of_not_mem '/' b hb]
  simp [cleanElems, ha1, ha2, ha3, hb1, hb2, hb3, List.intercalate, List.intersperse]

theorem encodeChar_mem (i : Nat) : encodeChar (i &&& 0x3F) ∈ encodeURL := by
  have hlt : i &&& 0x3F < 64 := Nat.lt_succ_of_le Nat.and_le_right
  have hall : ∀ j < 64, encodeChar j ∈ encodeURL := by decide
  exact hall _ hlt

theorem rawURLEncode_mem (bytes : List UInt8) : ∀ c ∈ rawURLEncode bytes, c ∈ encodeURL := by
  induction bytes using rawURLEncode.induct with
  | case1 b0 b1 b2 rest ih =>
    intro c hc
    simp only [rawURLEncode, List.mem_cons] at hc
    rcases hc with h | h | h | h | h
    · exact h ▸ encodeChar_mem _
    · exact h ▸ encodeChar_mem _
    · exact h ▸ encodeChar_mem _
    · exact h ▸ encodeChar_mem _
    · exact ih c h
  | case2 b0 b1 =>
    intro c hc
    simp only [rawURLEncode, List.mem_cons, List.mem_singleton, List.not_mem_nil, or_false] at hc
    rcases hc with h | h | h
    · exact h ▸ encodeChar_mem _
    · exact h ▸ encodeChar_mem _
    · exact h ▸ encodeChar_mem _
  | case3 b0 =>
    intro c hc
    simp only [rawURLEncode, List.mem_cons, List.mem_singleton, List.not_mem_nil, or_false] at hc
    rcases hc with h | h
    · exact h ▸ encodeChar_mem _
    · exact h ▸ encodeChar_mem _
  | case4 => simp [rawURLEncode]

theorem rawURLEncode_length (bytes : List UInt8) :
    (rawURLEncode bytes).length = (4 * bytes.length + 2) / 3 := by
  induction bytes using rawURLEncode.induct with
  | case1 b0 b1 b2 rest ih =>
    simp only [rawURLEncode, List.length_cons, ih]
    omega
  | case2 b0 b1 => simp [rawURLEncode]
  | case3 b0 => simp [rawURLEncode]
  | case4 => simp [rawURLEncode]


theorem encodeURL_chars : ∀ c ∈ encodeURL, (c.isAlphanum = true ∨ c = '-' ∨ c = '_') ∧
    c ≠ '/' ∧ c ≠ '.' ∧ c ≠ '=' := by
  decide

theorem mediaTypeExt_mp4 : mediaTypeExt "video/mp4" = ".mp4" := by
  decide

theorem getVideoOrientation_cases (ar : String) :
    getVideoOrientation ar = "landscape" ∨ getVideoOrientation ar = "portrait" ∨
      getVideoOrientation ar = "other" := by
  unfold getVideoOrientation
  split_ifs <;> simp

/-- The key built from an orientation and an encoded name with extension `.mp4`. -/
theorem filepathJoin_key (o : String) (enc : List Char)
    (ho : o = "landscape" ∨ o = "portrait" ∨ o = "other")
    (henc : ∀ c ∈ enc, c ∈ encodeURL) :
    filepathJoin [o, String.mk enc ++ ".mp4"] = o ++ "/" ++ String.mk enc ++ ".mp4" ∧
    filepathClean (o ++ "/" ++ String.mk enc ++ ".mp4") = o ++ "/" ++ String.mk enc ++ ".mp4" ∧
    (o ++ "/" ++ String.mk enc ++ ".mp4").data.count '/' = 1 := by
  have hslash : '/' ∉ enc ++ ['.', 'm', 'p', '4'] := by
    intro hm
    rcases List.mem_append.mp hm with h | h
    · exact (encodeURL_chars _ (henc _ h)).2.1 rfl
    · revert h; decide
  have hdot : ∀ c ∈ enc, c ≠ '.' := fun c hc => (encodeURL_chars _ (henc _ hc)).2.2.1
  have hb1 : enc ++ ['.', 'm', 'p', '4'] ≠ [] := by simp
  have hb2 : enc ++ ['.', 'm', 'p', '4'] ≠ ['.'] := by
    intro h
    have := congrArg List.length h
    simp at this
  have hb3 : enc ++ ['.', 'm', 'p', '4'] ≠ ['.', '.'] := by
    intro h
    have := congrArg List.length h
    simp at this
  have hdata : (o ++ "/" ++ String.mk enc ++ ".mp4").data =
      o.data ++ '/' :: (enc ++ ['.', 'm', 'p', '4']) := by
    simp [String.data_append]
  have hclean : cleanChars (o.data ++ '/' :: (enc ++ ['.', 'm', 'p', '4'])) =
      o.data ++ '/' :: (enc ++ ['.', 'm', 'p', '4']) := by
    rcases ho with h | h | h <;> subst h <;>
      exact cleanChars_two _ _ (by decide) hslash (by decide) (by decide) (by decide) hb1 hb2 hb3
  have hcount : ('/' : Char) ∉ enc := fun h => (encodeURL_chars _ (henc _ h)).2.1 rfl
  refine ⟨?_, ?_, ?_⟩
  · have hone : o ≠ "" := by rcases ho with h | h | h <;> subst h <;> decide
    unfold filepathJoin filepathClean
    rw [if_pos hone]
    apply String.ext
    rw [hdata]
    simp only [List.map, List.intercalate, List.intersperse, List.flatten, String.data_append]
    simpa using hclean
  · unfold filepathClean
    apply String.ext
    rw [hdata]
    simpa using hclean
  · rw [hdata]
    rw [List.count_append, List.count_cons_self, List.count_append,
      List.count_eq_zero_of_not_mem hcount]
    rcases ho with h | h | h <;> subst h <;> decide

theorem mapIndex_allowed (mediaType : String) :
    mapIndex allowedVideoTypes mediaType = true ↔ mediaType = "video/mp4" := by
  unfold mapIndex allowedVideoTypes
  by_cases h1 : mediaType = "video/mp4"
  · subst h1; decide
  by_cases h2 : mediaType = "video/mpeg"
  · subst h2; decide
  by_cases h3 : mediaType = "video/quicktime"
  · subst h3; decide
  by_cases h4 : mediaType = "video/x-msvideo"
  · subst h4; decide
  by_cases h5 : mediaType = "video/webm"
  · subst h5; decide
  have e1 : (mediaType == "video/mp4") = false := beq_eq_false_iff_ne.mpr h1
  have e2 : (mediaType == "video/mpeg") = false := beq_eq_false_iff_ne.mpr h2
  have e3 : (mediaType == "video/quicktime") = false := beq_eq_false_iff_ne.mpr h3
  have e4 : (mediaType == "video/x-msvideo") = false := beq_eq_false_iff_ne.mpr h4
  have e5 : (mediaType == "video/webm") = false := beq_eq_false_iff_ne.mpr h5
  simp [List.lookup, e1, e2, e3, e4, e5, h1]

theorem validateVideoFile_ok_iff (parse : String → Except String String)
    (contentType mediaType : String) :
    validateVideoFile parse contentType = .ok mediaType ↔
      contentType ≠ "" ∧ parse contentType = .ok mediaType ∧ mediaType = "video/mp4" := by
  unfold validateVideoFile
  by_cases hct : contentType = ""
  · simp [hct]
  · rw [if_neg hct]
    cases hp : parse contentType with
    | error err => simp [hct]
    | ok mt =>
      by_cases hmt : mt = "video/mp4"
      · subst hmt
        have hpre : stringsHasPrefix "video/mp4" "video/" = true := by decide
        have hall : mapIndex allowedVideoTypes "video/mp4" = true := by decide
        simp [hct, hpre, hall, eq_comm]
      · have hall : mapIndex allowedVideoTypes mt = false := by
          cases h : mapIndex allowedVideoTypes mt with
          | false => rfl
          | true => exact absurd ((mapIndex_allowed mt).mp h) hmt
        simp only [hall, Bool.not_false, if_true, ne_eq, hct, not_false_eq_true, true_and]
        constructor
        · intro h
          split_ifs at h
        · rintro ⟨h1, h2⟩
          cases h1
          exact absurd h2 hmt

theorem validateVideoFile_total (parse : String → Except String String) (contentType : String) :
    (∃ err, validateVideoFile parse contentType = .error err) ∨
      validateVideoFile parse contentType = .ok "video/mp4" := by
  cases h : validateVideoFile parse contentType with
  | error err => exact Or.inl ⟨err, rfl⟩
  | ok mt =>
    have := ((validateVideoFile_ok_iff parse contentType mt).mp h).2.2
    subst this
    exact Or.inr rfl

/-! ## The base64 encoder against RFC 4648 -/

theorem and_0x3F (x : Nat) : x &&& 0x3F = x % 64 :=
  Nat.and_pow_two_sub_one_eq_mod x 6

theorem group_val (a b c : Nat) (hb : b < 256) (hc : c < 256) :
    a <<< 16 ||| b <<< 8 ||| c = a * 65536 + b * 256 + c := by
  have h1 : a <<< 16 ||| b <<< 8 = 2 ^ 8 * (a * 256 + b) := by
    have := Nat.mul_add_lt_is_or (i := 16) (b := b <<< 8)
      (by rw [Nat.shiftLeft_eq]; omega) a
    rw [Nat.shiftLeft_eq a 16, Nat.mul_comm a (2 ^ 16), ← this, Nat.shiftLeft_eq]
    omega
  rw [h1, ← Nat.mul_add_lt_is_or (i := 8) (by omega : c < 2 ^ 8)]
  omega

theorem toNat_lt (b : UInt8) : b.toNat < 256 := b.val.isLt

/-- The four characters of a full group are indexed by the 6-bit digits of its 24 bits. -/
theorem group_digits (a b c : Nat) (ha : a < 256) (hb : b < 256) (hc : c < 256) :
    (a <<< 16 ||| b <<< 8 ||| c) >>> 18 &&& 0x3F = a / 4 ∧
    (a <<< 16 ||| b <<< 8 ||| c) >>> 12 &&& 0x3F = a % 4 * 16 + b / 16 ∧
    (a <<< 16 ||| b <<< 8 ||| c) >>> 6 &&& 0x3F = b % 16 * 4 + c / 64 ∧
    (a <<< 16 ||| b <<< 8 ||| c) &&& 0x3F = c % 64 := by
  rw [group_val a b c hb hc]
  simp only [and_0x3F, Nat.shiftRight_eq_div_pow]
  refine ⟨?_, ?_, ?_, ?_⟩ <;> omega

theorem group_digits_two (a b : Nat) (ha : a < 256) (hb : b < 256) :
    (a <<< 16 ||| b <<< 8) >>> 18 &&& 0x3F = a / 4 ∧
    (a <<< 16 ||| b <<< 8) >>> 12 &&& 0x3F = a % 4 * 16 + b / 16 ∧
    (a <<< 16 ||| b <<< 8) >>> 6 &&& 0x3F = b % 16 * 4 := by
  have h := group_val a b 0 hb (by decide)
  simp only [Nat.or_zero] at h
  rw [h]
  simp only [and_0x3F, Nat.shiftRight_eq_div_pow]
  refine ⟨?_, ?_, ?_⟩ <;> omega

theorem group_digits_one (a : Nat) (ha : a < 256) :
    (a <<< 16) >>> 18 &&& 0x3F = a / 4 ∧ (a <<< 16) >>> 12 &&& 0x3F = a % 4 * 16 := by
  simp only [and_0x3F, Nat.shiftRight_eq_div_pow, Nat.shiftLeft_eq]
  refine ⟨?_, ?_⟩ <;> omega

/-- The encoder computes the RFC 4648 digits and looks them up in the URL-safe alphabet. -/
theorem rawURLEncode_eq_digits (bytes : List UInt8) :
    rawURLEncode bytes = (base64Digits (bytes.map UInt8.toNat)).map encodeChar := by
  induction bytes using rawURLEncode.induct with
  | case1 b0 b1 b2 rest ih =>
    obtain ⟨h1, h2, h3, h4⟩ := group_digits b0.toNat b1.toNat b2.toNat (toNat_lt b0)
      (toNat_lt b1) (toNat_lt b2)
    simp only [rawURLEncode, List.map_cons, base64Digits, h1, h2, h3, h4, ih]
  | case2 b0 b1 =>
    obtain ⟨h1, h2, h3⟩ := group_digits_two b0.toNat b1.toNat (toNat_lt b0) (toNat_lt b1)
    simp only [rawURLEncode, List.map_cons, List.map_nil, base64Digits, h1, h2, h3]
  | case3 b0 =>
    obtain ⟨h1, h2⟩ := group_digits_one b0.toNat (toNat_lt b0)
    simp only [rawURLEncode, List.map_cons, List.map_nil, base64Digits, h1, h2]
  | case4 => rfl

theorem encodeChar_inj : ∀ i < 64, ∀ j < 64, encodeChar i = encodeChar j → i = j := by
  decide

theorem and_0x3F_lt (x : Nat) : x &&& 0x3F < 64 := by
  rw [and_0x3F]
  omega

theorem uint8_eq_of_toNat_eq (a b : UInt8) (h : a.toNat = b.toNat) : a = b :=
  UInt8.ext h

/-- Distinct byte strings have distinct encodings. -/
theorem rawURLEncode_injective (bytes bytes' : List UInt8)
    (h : rawURLEncode bytes = rawURLEncode bytes') : bytes = bytes' := by
  induction bytes using rawURLEncode.induct generalizing bytes' with
  | case1 b0 b1 b2 rest ih =>
    rcases bytes' with _ | ⟨c0, _ | ⟨c1, _ | ⟨c2, rest'⟩⟩⟩
    · simp [rawURLEncode] at h
    · simp [rawURLEncode] at h
    · simp [rawURLEncode] at h
    · simp only [rawURLEncode, List.cons.injEq] at h
      obtain ⟨e1, e2, e3, e4, hrest⟩ := h
      have i1 := encodeChar_inj _ (and_0x3F_lt _) _ (and_0x3F_lt _) e1
      have i2 := encodeChar_inj _ (and_0x3F_lt _) _ (and_0x3F_lt _) e2
      have i3 := encodeChar_inj _ (and_0x3F_lt _) _ (and_0x3F_lt _) e3
      have i4 := encodeChar_inj _ (and_0x3F_lt _) _ (and_0x3F_lt _) e4
      obtain ⟨g1, g2, g3, g4⟩ := group_digits b0.toNat b1.toNat b2.toNat (toNat_lt b0)
        (toNat_lt b1) (toNat_lt b2)
      obtain ⟨k1, k2, k3, k4⟩ := group_digits c0.toNat c1.toNat c2.toNat (toNat_lt c0)
        (toNat_lt c1) (toNat_lt c2)
      rw [g1, k1] at i1
      rw [g2, k2] at i2
      rw [g3, k3] at i3
      rw [g4, k4] at i4
      have hb0 := toNat_lt b0
      have hb1 := toNat_lt b1
      have hb2 := toNat_lt b2
      have hc0 := toNat_lt c0
      have hc1 := toNat_lt c1
      have hc2 := toNat_lt c2
      rw [uint8_eq_of_toNat_eq b0 c0 (by omega), uint8_eq_of_toNat_eq b1 c1 (by omega),
        uint8_eq_of_toNat_eq b2 c2 (by omega), ih rest' hrest]
  | case2 b0 b1 =>
    rcases bytes' with _ | ⟨c0, _ | ⟨c1, _ | ⟨c2, rest'⟩⟩⟩
    · simp [rawURLEncode] at h
    · simp [rawURLEncode] at h
    · simp only [rawURLEncode, List.cons.injEq, and_true] at h
      obtain ⟨e1, e2, e3⟩ := h
      have i1 := encodeChar_inj _ (and_0x3F_lt _) _ (and_0x3F_lt _) e1
      have i2 := encodeChar_inj _ (and_0x3F_lt _) _ (and_0x3F_lt _) e2
      have i3 := encodeChar_inj _ (and_0x3F_lt _) _ (and_0x3F_lt _) e3
      obtain ⟨g1, g2, g3⟩ := group_digits_two b0.toNat b1.toNat (toNat_lt b0) (toNat_lt b1)
      obtain ⟨k1, k2, k3⟩ := group_digits_two c0.toNat c1.toNat (toNat_lt c0) (toNat_lt c1)
      rw [g1, k1] at i1
      rw [g2, k2] at i2
      rw [g3, k3] at i3
      have hb0 := toNat_lt b0
      have hb1 := toNat_lt b1
      have hc0 := toNat_lt c0
      have hc1 := toNat_lt c1
      rw [uint8_eq_of_toNat_eq b0 c0 (by omega), uint8_eq_of_toNat_eq b1 c1 (by omega)]
    · simp [rawURLEncode] at h
  | case3 b0 =>
    rcases bytes' with _ | ⟨c0, _ | ⟨c1, _ | ⟨c2, rest'⟩⟩⟩
    · simp [rawURLEncode] at h
    · simp only [rawURLEncode, List.cons.injEq, and_true] at h
      obtain ⟨e1, e2⟩ := h
      have i1 := encodeChar_inj _ (and_0x3F_lt _) _ (and_0x3F_lt _) e1
      have i2 := encodeChar_inj _ (and_0x3F_lt _) _ (and_0x3F_lt _) e2
      obtain ⟨g1, g2⟩ := group_digits_one b0.toNat (toNat_lt b0)
      obtain ⟨k1, k2⟩ := group_digits_one c0.toNat (toNat_lt c0)
      rw [g1, k1] at i1
      rw [g2, k2] at i2
      have hb0 := toNat_lt b0
      have hc0 := toNat_lt c0
      rw [uint8_eq_of_toNat_eq b0 c0 (by omega)]
    · simp [rawURLEncode] at h
    · simp [rawURLEncode] at h
  | case4 =>
    rcases bytes' with _ | ⟨c0, _ | ⟨c1, _ | ⟨c2, rest'⟩⟩⟩
    · rfl
    · simp [rawURLEncode] at h
    · simp [rawURLEncode] at h
    · simp [rawURLEncode] at h

/-- RFC 4648 test vectors (section 10), without padding, and the bytes `0, 1, ..., 15`. -/
theorem rawURLEncode_test_vectors :
    rawURLEncode [102] = "Zg".data ∧
    rawURLEncode [102, 111] = "Zm8".data ∧
    rawURLEncode [102, 111, 111] = "Zm9v".data ∧
    rawURLEncode [102, 111, 111, 98, 97, 114] = "Zm9vYmFy".data ∧
    rawURLEncode [251, 255] = "-_8".data ∧
    rawURLEncode (List.ofFn (fun i : Fin 16 => i.val.toUInt8)) =
      "AAECAwQFBgcICQoLDA0ODw".data := by
  decide!

/-- C5: for every 16 random bytes and every probed width and height, the object key the
handler builds, `filepath.Join(orientation, getAssetFilename(mediaType))` with the media
type returned by `validateVideoFile`, is `orientation + "/" + name + ".mp4"`, where
`orientation` is `"landscape"`, `"portrait"` or `"other"` and `name` is the 22-character
unpadded URL-safe base64 encoding of the bytes (letters, digits, `-` and `_` only, no `=`):
its characters are the RFC 4648 digits of the bytes looked up in the URL-safe alphabet, and
no other 16 bytes have the same name; the key contains exactly one `/` and cleaning it
changes nothing. -/
theorem s3Key_shape (bytes : Fin 16 → UInt8) (width height : ℤ)
    (parse : String → Except String String) (contentType mediaType : String)
    (hvalid : validateVideoFile parse contentType = .ok mediaType) :
    ∃ name : String,
      name = String.mk (rawURLEncode (List.ofFn bytes)) ∧
      name.data = (base64Digits ((List.ofFn bytes).map UInt8.toNat)).map
        (fun d => "ABCDEFGHIJKLMNOPQRSTUVWXYZabcdefghijklmnopqrstuvwxyz0123456789-_".data.getD
          d 'A') ∧
      (∀ bytes' : Fin 16 → UInt8,
        String.mk (rawURLEncode (List.ofFn bytes')) = name → bytes' = bytes) ∧
      getAssetFilename (.ok bytes) mediaType = some (name ++ ".mp4") ∧
      name.length = 22 ∧
      (∀ c ∈ name.data, (c.isAlphanum = true ∨ c = '-' ∨ c = '_') ∧ c ≠ '=') ∧
      (classify width height = "landscape" ∨ classify width height = "portrait" ∨
        classify width height = "other") ∧
      filepathJoin [classify width height, name ++ ".mp4"] =
        classify width height ++ "/" ++ name ++ ".mp4" ∧
      (filepathJoin [classify width height, name ++ ".mp4"]).data.count '/' = 1 ∧
      filepathClean (classify width height ++ "/" ++ name ++ ".mp4") =
        classify width height ++ "/" ++ name ++ ".mp4" := by
  have hmt : mediaType = "video/mp4" := ((validateVideoFile_ok_iff _ _ _).mp hvalid).2.2
  subst hmt
  have henc := rawURLEncode_mem (List.ofFn bytes)
  have hkey := filepathJoin_key (classify width height) (rawURLEncode (List.ofFn bytes))
    (getVideoOrientation_cases _) henc
  refine ⟨String.mk (rawURLEncode (List.ofFn bytes)), rfl, ?_, ?_, ?_, ?_, ?_,
    getVideoOrientation_cases _, hkey.1, ?_, hkey.2.1⟩
  · exact rawURLEncode_eq_digits (List.ofFn bytes)
  · intro bytes' h
    have hlist : rawURLEncode (List.ofFn bytes') = rawURLEncode (List.ofFn bytes) :=
      congrArg String.data h
    exact List.ofFn_injective (rawURLEncode_injective _ _ hlist)
  · simp [getAssetFilename, mediaTypeExt_mp4]
  · simp [String.length, rawURLEncode_length]
  · intro c hc
    have := encodeURL_chars c (henc c hc)
    exact ⟨this.1, this.2.2.2⟩
  · rw [hkey.1]
    exact hkey.2.2

/-- Witness for C5: the bytes `0, 1, ..., 15`, a 1920x1080 probe and the content type
`video/mp4`. -/
theorem s3Key_shape_witness :
    ∃ name : String,
      name = String.mk (rawURLEncode (List.ofFn (fun i : Fin 16 => i.val.toUInt8))) ∧
      name.data = (base64Digits ((List.ofFn (fun i : Fin 16 => i.val.toUInt8)).map
        UInt8.toNat)).map
        (fun d => "ABCDEFGHIJKLMNOPQRSTUVWXYZabcdefghijklmnopqrstuvwxyz0123456789-_".data.getD
          d 'A') ∧
      (∀ bytes' : Fin 16 → UInt8,
        String.mk (rawURLEncode (List.ofFn bytes')) = name →
          bytes' = fun i : Fin 16 => i.val.toUInt8) ∧
      getAssetFilename (.ok (fun i : Fin 16 => i.val.toUInt8)) "video/mp4" =
        some (name ++ ".mp4") ∧
      name.length = 22 ∧
      (∀ c ∈ name.data, (c.isAlphanum = true ∨ c = '-' ∨ c = '_') ∧ c ≠ '=') ∧
      (classify 1920 1080 = "landscape" ∨ classify 1920 1080 = "portrait" ∨
        classify 1920 1080 = "other") ∧
      filepathJoin [classify 1920 1080, name ++ ".mp4"] =
        classify 1920 1080 ++ "/" ++ name ++ ".mp4" ∧
      (filepathJoin [classify 1920 1080, name ++ ".mp4"]).data.count '/' = 1 ∧
      filepathClean (classify 1920 1080 ++ "/" ++ name ++ ".mp4") =
        classify 1920 1080 ++ "/" ++ name ++ ".mp4" :=
  s3Key_shape (fun i => i.val.toUInt8) 1920 1080 (fun s => .ok s) "video/mp4" "video/mp4"
    rfl


/-! ## The upload handler: claims -/

/-- C2 fails on the exit taken when `os.Open` on the remuxed file fails: the handler answers
500 and returns, the staged file is removed by its deferred `os.Remove`, and the remuxed
file, whose removal is deferred only after a successful open, is still on the filesystem. -/
theorem handlerUploadVideo_reopen_failure_leaks :
    (handlerUploadVideo scenarioCfg reopenFailureEnv ⟨[], []⟩).hasFile
        "/tmp/tubely-processed-200.mp4" = true ∧
      (handlerUploadVideo scenarioCfg reopenFailureEnv ⟨[], []⟩).hasFile
        "/tmp/tubely-upload.mp4100" = false ∧
      (handlerUploadVideo scenarioCfg reopenFailureEnv ⟨[], []⟩).log =
        [.createTemp "/tmp/tubely-upload.mp4100",
         .ffprobe "/tmp/tubely-upload.mp4100",
         .createTemp "/tmp/tubely-processed-200.mp4",
         .ffmpeg "/tmp/tubely-upload.mp4100" "/tmp/tubely-processed-200.mp4",
         .errorResponse 500 "Failed to reopen fast start video file",
         .remove "/tmp/tubely-upload.mp4100"] := by
  decide!

/-- C4: when the credential resolves to a user other than the record's owner, the handler
answers 401 and does nothing else: the filesystem is unchanged and the only event of the run
is the error response, so nothing is staged, probed, remuxed or published and `UpdateVideo`
is not called. -/
theorem handlerUploadVideo_not_owner (cfg : ApiConfig) (env : Env) (w : World)
    (token : String) (userID videoID : UUID) (video : Video)
    (htoken : env.bearerToken = .ok token)
    (hjwt : env.validateJWT token cfg.jwtSecret = .ok userID)
    (hid : env.pathVideoID = .ok videoID)
    (hget : env.getVideo videoID = .ok video)
    (hown : video.userID ≠ userID) :
    handlerUploadVideo cfg env w =
      { files := w.files, log := w.log ++ [.errorResponse 401 "Unauthorized"] } := by
  simp [handlerUploadVideo, getUserID, getVideoFromDb, htoken, hjwt, hid, hget, hown,
    respondWithError, World.emit]

/-- Witness for C4: the scenario with a record owned by user 8 and a caller who is user 7. -/
theorem handlerUploadVideo_not_owner_witness :
    handlerUploadVideo scenarioCfg otherOwnerEnv ⟨[], []⟩ =
      { files := [], log := [] ++ [.errorResponse 401 "Unauthorized"] } :=
  handlerUploadVideo_not_owner scenarioCfg otherOwnerEnv ⟨[], []⟩ "token" 7 42
    { id := 42, userID := 8, videoURL := none, thumbnailURL := none } rfl rfl rfl rfl
    (by decide)

/-- C10, as stated, fails: with a valid credential and no record stored for the requested
ID the handler answers 400, not 404. -/
theorem handlerUploadVideo_absent_record_counterexample :
    (handlerUploadVideo scenarioCfg absentRecordEnv ⟨[], []⟩).log =
        [.errorResponse 400 "Invalid Video ID"] ∧
      ∀ msg, Event.errorResponse 404 msg ∉
        (handlerUploadVideo scenarioCfg absentRecordEnv ⟨[], []⟩).log := by
  have h : (handlerUploadVideo scenarioCfg absentRecordEnv ⟨[], []⟩).log =
      [.errorResponse 400 "Invalid Video ID"] := by decide!
  refine ⟨h, ?_⟩
  intro msg hmem
  rw [h] at hmem
  simp at hmem

/-- C10 (amended): when the credential is valid and `GetVideo` fails for the requested ID,
the handler answers 400 "Invalid Video ID" and does nothing else; a malformed ID gets the
same response. -/
theorem handlerUploadVideo_absent_record (cfg : ApiConfig) (env : Env) (w : World)
    (token : String) (userID : UUID)
    (htoken : env.bearerToken = .ok token)
    (hjwt : env.validateJWT token cfg.jwtSecret = .ok userID) :
    (∀ videoID err, env.pathVideoID = .ok videoID → env.getVideo videoID = .error err →
      handlerUploadVideo cfg env w =
        { files := w.files, log := w.log ++ [.errorResponse 400 "Invalid Video ID"] }) ∧
    (∀ err, env.pathVideoID = .error err →
      handlerUploadVideo cfg env w =
        { files := w.files, log := w.log ++ [.errorResponse 400 "Invalid Video ID"] }) := by
  constructor
  · intro videoID err hid hget
    simp [handlerUploadVideo, getUserID, getVideoFromDb, htoken, hjwt, hid, hget,
      respondWithError, World.emit]
  · intro err hid
    simp [handlerUploadVideo, getUserID, getVideoFromDb, htoken, hjwt, hid,
      respondWithError, World.emit]

/-- Witness for C10 (amended): the scenario with no record stored for ID 42. -/
theorem handlerUploadVideo_absent_record_witness :
    handlerUploadVideo scenarioCfg absentRecordEnv ⟨[], []⟩ =
      { files := [], log := [] ++ [.errorResponse 400 "Invalid Video ID"] } :=
  (handlerUploadVideo_absent_record scenarioCfg absentRecordEnv ⟨[], []⟩ "token" 7 rfl rfl).1
    42 "sql: no rows in result set" rfl rfl

/-- C3: `validateVideoFile` fails on an empty content type, on a parsed media type that does
not begin with `video/`, and on every parsed media type other than `video/mp4` (so on
`video/quicktime`, `video/mpeg`, `video/webm`, `video/x-msvideo` and every unlisted video
type); when it succeeds it returns exactly `video/mp4`.  When it fails in a run that reaches
it, the handler answers 400 and does nothing else: no temporary file is created. -/
theorem validateVideoFile_rejects (parse : String → Except String String)
    (contentType : String) :
    (contentType = "" → ∃ err, validateVideoFile parse contentType = .error err) ∧
    (∀ mediaType, parse contentType = .ok mediaType →
      stringsHasPrefix mediaType "video/" = false →
      ∃ err, validateVideoFile parse contentType = .error err) ∧
    (∀ mediaType, parse contentType = .ok mediaType → mediaType ≠ "video/mp4" →
      ∃ err, validateVideoFile parse contentType = .error err) ∧
    (∀ mediaType, validateVideoFile parse contentType = .ok mediaType →
      mediaType = "video/mp4") ∧
    (∀ (cfg : ApiConfig) (env : Env) (w : World) (token : String) (userID videoID : UUID)
      (video : Video) (file : List UInt8),
      env.bearerToken = .ok token → env.validateJWT token cfg.jwtSecret = .ok userID →
      env.pathVideoID = .ok videoID → env.getVideo videoID = .ok video →
      video.userID = userID → env.parseMultipartForm = .ok () →
      env.formFile = .ok (file, contentType) → env.parseMediaType = parse →
      (∃ err, validateVideoFile parse contentType = .error err) →
      handlerUploadVideo cfg env w =
        { files := w.files, log := w.log ++ [.errorResponse 400 "Invalid format"] }) := by
  have hne : ∀ mediaType, parse contentType = .ok mediaType → mediaType ≠ "video/mp4" →
      ∃ err, validateVideoFile parse contentType = .error err := by
    intro mediaType hp hmt
    rcases validateVideoFile_total parse contentType with h | h
    · exact h
    · have h' := (validateVideoFile_ok_iff parse contentType "video/mp4").mp h
      rw [hp] at h'
      cases h'.2.1
      exact absurd rfl hmt
  refine ⟨?_, ?_, hne, ?_, ?_⟩
  · intro hct
    exact ⟨"Invalid Content-Type header", by simp [validateVideoFile, hct]⟩
  · intro mediaType hp hpre
    apply hne mediaType hp
    intro hmt
    subst hmt
    revert hpre
    decide
  · intro mediaType h
    exact ((validateVideoFile_ok_iff parse contentType mediaType).mp h).2.2
  · intro cfg env w token userID videoID video file htoken hjwt hid hget hown hmp hff hparse
      ⟨err, herr⟩
    simp [handlerUploadVideo, getUserID, getVideoFromDb, htoken, hjwt, hid, hget, hown, hmp,
      hff, hparse, herr, respondWithError, World.emit]

/-- Witness for C3: an upload declared as `video/quicktime` is answered with 400 and no
temporary file is created. -/
theorem validateVideoFile_rejects_witness :
    handlerUploadVideo scenarioCfg quicktimeEnv ⟨[], []⟩ =
      { files := [], log := [] ++ [.errorResponse 400 "Invalid format"] } :=
  (validateVideoFile_rejects (fun contentType => .ok contentType) "video/quicktime").2.2.2.2
    scenarioCfg quicktimeEnv ⟨[], []⟩ "token" 7 42
    { id := 42, userID := 7, videoURL := none, thumbnailURL := none } [0, 0, 0, 24]
    rfl rfl rfl rfl rfl rfl rfl rfl
    ((validateVideoFile_rejects (fun contentType => .ok contentType) "video/quicktime").2.2.1
      "video/quicktime" rfl (by decide))

/-! ## The successful run -/

theorem externals_emit (w : World) (e : Event) :
    (w.emit e).externals = w.externals ++ (if e.isExternal then [e] else []) := by
  simp [World.externals, World.emit, List.filter_append, List.filter_cons]

theorem externals_respondWithError (code : Nat) (msg : String) (w : World) :
    (respondWithError code msg w).externals = w.externals := by
  simp [respondWithError, externals_emit, Event.isExternal]

theorem externals_osRemove (name : String) (w : World) :
    (osRemove name w).externals = w.externals := by
  simp [osRemove, World.externals, List.filter_append, List.filter_cons, Event.isExternal]

theorem externals_setSize (name : String) (size : Nat) (w : World) :
    (setSize name size w).externals = w.externals := rfl

theorem externals_setFile (name : String) (state : Option Nat) (w : World) :
    (setFile name state w).externals = w.externals := by
  cases state <;> rfl

theorem externals_osCreateTemp (outcome : Except String String) (w : World) :
    (osCreateTemp outcome w).1.externals = w.externals := by
  cases outcome <;>
    simp [osCreateTemp, World.externals, List.filter_append, List.filter_cons,
      Event.isExternal]

theorem externals_createTemp (name : String) (w : World) :
    ({ files := (name, 0) :: w.files, log := w.log ++ [.createTemp name] } : World).externals =
      w.externals := by
  simp [World.externals, List.filter_append, List.filter_cons, Event.isExternal]

theorem externals_processVideoForFastStart (env : Env) (filename : String) (w : World) :
    (processVideoForFastStart env filename w).1.externals = w.externals := by
  unfold processVideoForFastStart
  cases hct : env.createTempProcessed with
  | error err => simp [osCreateTemp]
  | ok name =>
    simp only [osCreateTemp]
    repeat' split
    all_goals
      simp [externals_osRemove, externals_setFile, externals_emit, Event.isExternal,
        externals_createTemp]

/-- Key construction, publication and the record update either add no success response, or
add exactly a `PutObject` call, an `UpdateVideo` call and the 200 response. -/
theorem publishAndFinalize_externals (cfg : ApiConfig) (env : Env) (video : Video)
    (mediaType aspectRatio : String) (w : World) :
    (∀ code v, Event.jsonResponse code v ∈
        (publishAndFinalize cfg env video mediaType aspectRatio w).externals →
      Event.jsonResponse code v ∈ w.externals) ∨
    (∃ name, getAssetFilename env.randRead mediaType = some name ∧
      (publishAndFinalize cfg env video mediaType aspectRatio w).externals =
        w.externals ++
          [.putObject cfg.s3Bucket (filepathJoin [getVideoOrientation aspectRatio, name])
              mediaType,
            .updateVideo { video with videoURL := some (getCloudFlareUrl cfg
              (filepathJoin [getVideoOrientation aspectRatio, name])) },
            .jsonResponse 200 { video with videoURL := some (getCloudFlareUrl cfg
              (filepathJoin [getVideoOrientation aspectRatio, name])) }]) := by
  unfold publishAndFinalize
  cases hname : getAssetFilename env.randRead mediaType with
  | none => left; intro code v h; simpa using h
  | some name =>
    cases hstat : env.statProcessed with
    | error err =>
      left; intro code v h
      simpa [externals_respondWithError] using h
    | ok u =>
      cases hput : env.putObject with
      | error err =>
        left; intro code v h
        simpa [externals_respondWithError, externals_emit, Event.isExternal] using h
      | ok u2 =>
        cases hupd : env.updateVideo { video with videoURL := some (getCloudFlareUrl cfg
            (filepathJoin [getVideoOrientation aspectRatio, name])) } with
        | error err =>
          left; intro code v h
          simp only [hupd] at h
          simpa [externals_respondWithError, externals_emit, Event.isExternal] using h
        | ok u3 =>
          right
          refine ⟨name, rfl, ?_⟩
          simp only [hupd]
          simp [respondWithJSON, externals_emit, Event.isExternal]

/-- The steps after staging either add no success response, or the probe and the name
generation succeeded and exactly the three external events of a success were added. -/
theorem stageProbeRemux_externals (cfg : ApiConfig) (env : Env) (video : Video)
    (mediaType : String) (file : List UInt8) (tempName : String) (w : World) :
    (∀ code v, Event.jsonResponse code v ∈
        (stageProbeRemux cfg env video mediaType file tempName w).externals →
      Event.jsonResponse code v ∈ w.externals) ∨
    (∃ ar name, getVideoAspectRatio env.ffprobe env.unmarshal tempName = .ok ar ∧
      getAssetFilename env.randRead mediaType = some name ∧
      (stageProbeRemux cfg env video mediaType file tempName w).externals =
        w.externals ++
          [.putObject cfg.s3Bucket (filepathJoin [getVideoOrientation ar, name]) mediaType,
            .updateVideo { video with videoURL := some (getCloudFlareUrl cfg
              (filepathJoin [getVideoOrientation ar, name])) },
            .jsonResponse 200 { video with videoURL := some (getCloudFlareUrl cfg
              (filepathJoin [getVideoOrientation ar, name])) }]) := by
  unfold stageProbeRemux
  cases hcopy : env.copy with
  | error err => left; intro code v h; simpa [externals_respondWithError] using h
  | ok u =>
    cases hseek : env.seek with
    | error err =>
      left; intro code v h
      simpa [externals_respondWithError, externals_setSize] using h
    | ok u2 =>
      cases hprobe : getVideoAspectRatio env.ffprobe env.unmarshal tempName with
      | error err =>
        left; intro code v h
        simpa [externals_respondWithError, externals_setSize, externals_emit,
          Event.isExternal] using h
      | ok ar =>
        have hbase : ((setSize tempName file.length w).emit (.ffprobe tempName)).externals =
            w.externals := by
          simp [externals_emit, externals_setSize, Event.isExternal]
        have hremux := externals_processVideoForFastStart env tempName
          ((setSize tempName file.length w).emit (.ffprobe tempName))
        rw [hbase] at hremux
        simp only
        rcases hp : processVideoForFastStart env tempName
          ((setSize tempName file.length w).emit (.ffprobe tempName)) with ⟨w2, r⟩
        rw [hp] at hremux
        simp only at hremux
        cases r with
        | error err =>
          left; intro code v h
          simpa [externals_respondWithError, hremux] using h
        | ok processedFilename =>
          cases hopen : env.openProcessed with
          | error err =>
            left; intro code v h
            simpa [externals_respondWithError, hremux] using h
          | ok u3 =>
            simp only [externals_osRemove]
            rcases publishAndFinalize_externals cfg env video mediaType ar w2 with hP | hP
            · left; intro code v h
              have := hP code v h
              rwa [hremux] at this
            · right
              obtain ⟨name, hname, hext⟩ := hP
              exact ⟨ar, name, rfl, hname, by rw [hext, hremux]⟩

/-- A run of the handler either writes no success response, or every step up to key
construction succeeded and its external events are exactly the `PutObject` call, the
`UpdateVideo` call and the 200 response. -/
theorem handlerUploadVideo_externals (cfg : ApiConfig) (env : Env) (w : World) :
    (∀ code v, Event.jsonResponse code v ∈ (handlerUploadVideo cfg env w).externals →
      Event.jsonResponse code v ∈ w.externals) ∨
    (∃ video tempName ar name, getVideoFromDb env = .ok video ∧
      env.createTempUpload = .ok tempName ∧
      getVideoAspectRatio env.ffprobe env.unmarshal tempName = .ok ar ∧
      getAssetFilename env.randRead "video/mp4" = some name ∧
      (handlerUploadVideo cfg env w).externals =
        w.externals ++
          [.putObject cfg.s3Bucket (filepathJoin [getVideoOrientation ar, name]) "video/mp4",
            .updateVideo { video with videoURL := some (getCloudFlareUrl cfg
              (filepathJoin [getVideoOrientation ar, name])) },
            .jsonResponse 200 { video with videoURL := some (getCloudFlareUrl cfg
              (filepathJoin [getVideoOrientation ar, name])) }]) := by
  unfold handlerUploadVideo
  rcases hu : getUserID cfg env w with ⟨w1, r⟩
  have hw1 : w1.externals = w.externals := by
    unfold getUserID at hu
    cases htok : env.bearerToken with
    | error err =>
      rw [htok] at hu
      cases hu
      exact externals_respondWithError _ _ _
    | ok token =>
      rw [htok] at hu
      cases hjwt : env.validateJWT token cfg.jwtSecret with
      | error err =>
        simp only [hjwt] at hu
        cases hu
        exact externals_respondWithError _ _ _
      | ok userID =>
        simp only [hjwt] at hu
        cases hu
        rfl
  cases r with
  | error err => left; intro code v h; simpa [hw1] using h
  | ok userID =>
    simp only
    cases hvid : getVideoFromDb env with
    | error err => left; intro code v h; simpa [externals_respondWithError, hw1] using h
    | ok video =>
      simp only
      by_cases hown : video.userID ≠ userID
      · left; intro code v h
        rw [if_pos hown] at h
        simpa [externals_respondWithError, hw1] using h
      · rw [if_neg hown]
        cases hmp : env.parseMultipartForm with
        | error err => left; intro code v h; simpa [externals_respondWithError, hw1] using h
        | ok u =>
          cases hff : env.formFile with
          | error err => left; intro code v h; simpa [externals_respondWithError, hw1] using h
          | ok fc =>
            obtain ⟨file, contentType⟩ := fc
            rcases validateVideoFile_total env.parseMediaType contentType with ⟨e, hv⟩ | hv
            · left; intro code v h
              simp only [hv] at h
              simpa [externals_respondWithError, hw1] using h
            · simp only [hv]
              cases hct : env.createTempUpload with
              | error err =>
                left; intro code v h
                simpa [osCreateTemp, externals_respondWithError, hw1] using h
              | ok tempName =>
                simp only [osCreateTemp, externals_osRemove]
                have hbase := externals_createTemp tempName w1
                rcases stageProbeRemux_externals cfg env video "video/mp4" file tempName
                  { files := (tempName, 0) :: w1.files,
                    log := w1.log ++ [.createTemp tempName] } with hS | hS
                · left; intro code v h
                  have := hS code v h
                  rwa [hbase, hw1] at this
                · right
                  obtain ⟨ar, name, har, hname, hext⟩ := hS
                  exact ⟨video, tempName, ar, name, rfl, rfl, har, hname,
                    by rw [hext, hbase, hw1]⟩

theorem getVideoAspectRatio_first_video (run : String → Except String String)
    (unmarshal : String → Except String FFProbeOutput) (filePath stdout : String)
    (result : FFProbeOutput) (pre : List Stream) (s : Stream) (post : List Stream)
    (hrun : run filePath = .ok stdout) (hparse : unmarshal stdout = .ok result)
    (hstreams : result.streams = pre ++ s :: post)
    (hpre : ∀ x ∈ pre, x.codecType ≠ "video") (hvid : s.codecType = "video") :
    getVideoAspectRatio run unmarshal filePath =
      .ok (calculateAspectRatio s.width s.height) := by
  simp only [getVideoAspectRatio, hrun, hparse]
  rw [hstreams, selectVideoStream_append pre (s :: post) hpre]
  simp [selectVideoStream, hvid]

/-! ## The end-to-end scenario -/

theorem calculateAspectRatio_1920_1080 : calculateAspectRatio 1920 1080 = "16:9" := by
  have h := classify_landscape_of_margin 1920 1080 (by decide) (by decide)
    (by unfold exactDeviation; norm_num)
  unfold classify getVideoOrientation at h
  split_ifs at h with h1 h2
  · exact h1
  · exact absurd h (by decide)
  · exact absurd h (by decide)

theorem scenario_probe :
    getVideoAspectRatio scenarioEnv.ffprobe scenarioEnv.unmarshal "/tmp/tubely-upload.mp4100" =
      .ok "16:9" := by
  have h0 : getVideoAspectRatio scenarioEnv.ffprobe scenarioEnv.unmarshal
      "/tmp/tubely-upload.mp4100" = .ok (calculateAspectRatio 1920 1080) := rfl
  rw [h0, calculateAspectRatio_1920_1080]

theorem scenario_remux :
    processVideoForFastStart scenarioEnv "/tmp/tubely-upload.mp4100"
        ⟨[("/tmp/tubely-upload.mp4100", 4)],
          [.createTemp "/tmp/tubely-upload.mp4100", .ffprobe "/tmp/tubely-upload.mp4100"]⟩ =
      (⟨[("/tmp/tubely-processed-200.mp4", 4), ("/tmp/tubely-upload.mp4100", 4)],
          [.createTemp "/tmp/tubely-upload.mp4100", .ffprobe "/tmp/tubely-upload.mp4100",
            .createTemp "/tmp/tubely-processed-200.mp4",
            .ffmpeg "/tmp/tubely-upload.mp4100" "/tmp/tubely-processed-200.mp4"]⟩,
        .ok "/tmp/tubely-processed-200.mp4") := by
  rfl

theorem scenario_publish (w : World) :
    publishAndFinalize scenarioCfg scenarioEnv
        { id := 42, userID := 7, videoURL := none, thumbnailURL := none } "video/mp4" "16:9" w =
      ⟨w.files, w.log ++
        [.putObject "tubely-bucket" "landscape/AAECAwQFBgcICQoLDA0ODw.mp4" "video/mp4",
          .updateVideo scenarioResult, .jsonResponse 200 scenarioResult]⟩ := by
  have hname : getAssetFilename scenarioEnv.randRead "video/mp4" =
      some "AAECAwQFBgcICQoLDA0ODw.mp4" := by decide!
  have hkey : filepathJoin [getVideoOrientation "16:9", "AAECAwQFBgcICQoLDA0ODw.mp4"] =
      "landscape/AAECAwQFBgcICQoLDA0ODw.mp4" := by decide!
  have hurl : getCloudFlareUrl scenarioCfg "landscape/AAECAwQFBgcICQoLDA0ODw.mp4" =
      "https://cdn.example.com/landscape/AAECAwQFBgcICQoLDA0ODw.mp4" := by decide!
  unfold publishAndFinalize
  simp only [hname, hkey, hurl]
  simp [scenarioEnv, scenarioCfg, scenarioResult, respondWithJSON, World.emit]

/-- The end-to-end scenario, step by step. -/
theorem scenario_run :
    handlerUploadVideo scenarioCfg scenarioEnv ⟨[], []⟩ =
      ⟨[], [.createTemp "/tmp/tubely-upload.mp4100",
        .ffprobe "/tmp/tubely-upload.mp4100",
        .createTemp "/tmp/tubely-processed-200.mp4",
        .ffmpeg "/tmp/tubely-upload.mp4100" "/tmp/tubely-processed-200.mp4",
        .putObject "tubely-bucket" "landscape/AAECAwQFBgcICQoLDA0ODw.mp4" "video/mp4",
        .updateVideo scenarioResult,
        .jsonResponse 200 scenarioResult,
        .remove "/tmp/tubely-processed-200.mp4",
        .remove "/tmp/tubely-upload.mp4100"]⟩ := by
  have hvalid : validateVideoFile scenarioEnv.parseMediaType "video/mp4" = .ok "video/mp4" :=
    rfl
  have hstage : stageProbeRemux scenarioCfg scenarioEnv
      { id := 42, userID := 7, videoURL := none, thumbnailURL := none } "video/mp4"
      [0, 0, 0, 24] "/tmp/tubely-upload.mp4100"
      ⟨[("/tmp/tubely-upload.mp4100", 0)], [.createTemp "/tmp/tubely-upload.mp4100"]⟩ =
      ⟨[("/tmp/tubely-upload.mp4100", 4)],
        [.createTemp "/tmp/tubely-upload.mp4100",
          .ffprobe "/tmp/tubely-upload.mp4100",
          .createTemp "/tmp/tubely-processed-200.mp4",
          .ffmpeg "/tmp/tubely-upload.mp4100" "/tmp/tubely-processed-200.mp4",
          .putObject "tubely-bucket" "landscape/AAECAwQFBgcICQoLDA0ODw.mp4" "video/mp4",
          .updateVideo scenarioResult,
          .jsonResponse 200 scenarioResult,
          .remove "/tmp/tubely-processed-200.mp4"]⟩ := by
    have hw : (setSize "/tmp/tubely-upload.mp4100" ([0, 0, 0, 24] : List UInt8).length
        ⟨[("/tmp/tubely-upload.mp4100", 0)], [.createTemp "/tmp/tubely-upload.mp4100"]⟩).emit
        (.ffprobe "/tmp/tubely-upload.mp4100") =
        ⟨[("/tmp/tubely-upload.mp4100", 4)],
          [.createTemp "/tmp/tubely-upload.mp4100", .ffprobe "/tmp/tubely-upload.mp4100"]⟩ :=
      rfl
    unfold stageProbeRemux
    have hcopy : scenarioEnv.copy = .ok () := rfl
    have hseek : scenarioEnv.seek = .ok () := rfl
    have hopen : scenarioEnv.openProcessed = .ok () := rfl
    simp only [hcopy, hseek, hopen, hw, scenario_probe, scenario_remux, scenario_publish]
    rfl
  have huser : getUserID scenarioCfg scenarioEnv ⟨[], []⟩ = (⟨[], []⟩, .ok 7) := rfl
  have hvideo : getVideoFromDb scenarioEnv =
      .ok { id := 42, userID := 7, videoURL := none, thumbnailURL := none } := rfl
  have hmp : scenarioEnv.parseMultipartForm = .ok () := rfl
  have hff : scenarioEnv.formFile = .ok ([0, 0, 0, 24], "video/mp4") := rfl
  have htemp : osCreateTemp scenarioEnv.createTempUpload ⟨[], []⟩ =
      (⟨[("/tmp/tubely-upload.mp4100", 0)], [.createTemp "/tmp/tubely-upload.mp4100"]⟩,
        .ok "/tmp/tubely-upload.mp4100") := rfl
  unfold handlerUploadVideo
  simp only [huser, hvideo, hmp, hff, hvalid, htemp, hstage]
  rfl


theorem classify_1920_1080 : classify 1920 1080 = "landscape" := by
  apply classify_landscape_of_margin 1920 1080 (by decide) (by decide)
  unfold exactDeviation
  norm_num

/-- C9: in every run that answers 200, the external events of the run are exactly one
`PutObject` call with some key, one `UpdateVideo` call and the 200 response; the record
submitted to `UpdateVideo` is the fetched record with its video URL set to
`"https://" + cdn-host + "/" + key` for that same key.  When the first video stream of the
probe report is 1920x1080, the key begins with `landscape/`. -/
theorem handlerUploadVideo_success (cfg : ApiConfig) (env : Env) (files : List (String × Nat))
    (v : Video)
    (hok : Event.jsonResponse 200 v ∈ (handlerUploadVideo cfg env ⟨files, []⟩).log) :
    ∃ key video,
      getVideoFromDb env = .ok video ∧
      v = { video with
        videoURL := some ("https://" ++ cfg.s3CfDistribution ++ "/" ++ key) } ∧
      (handlerUploadVideo cfg env ⟨files, []⟩).externals =
        [.putObject cfg.s3Bucket key "video/mp4", .updateVideo v, .jsonResponse 200 v] ∧
      (∀ (tempName stdout : String) (result : FFProbeOutput) (pre post : List Stream),
        env.createTempUpload = .ok tempName → env.ffprobe tempName = .ok stdout →
        env.unmarshal stdout = .ok result →
        result.streams = pre ++ ⟨"video", 1920, 1080⟩ :: post →
        (∀ x ∈ pre, x.codecType ≠ "video") →
        ∃ name, key = "landscape/" ++ name) := by
  have hmem : Event.jsonResponse 200 v ∈ (handlerUploadVideo cfg env ⟨files, []⟩).externals :=
    List.mem_filter.mpr ⟨hok, rfl⟩
  rcases handlerUploadVideo_externals cfg env ⟨files, []⟩ with h | h
  · have := h 200 v hmem
    simp [World.externals] at this
  · obtain ⟨video, tempName, ar, name, hvid, htemp, har, hname, hext⟩ := h
    have hnil : (⟨files, []⟩ : World).externals = [] := rfl
    rw [hnil, List.nil_append] at hext
    rw [hext] at hmem
    have hv : v = { video with videoURL := some (getCloudFlareUrl cfg
        (filepathJoin [getVideoOrientation ar, name])) } := by
      simpa using hmem
    refine ⟨filepathJoin [getVideoOrientation ar, name], video, hvid, hv, ?_, ?_⟩
    · rw [hext, hv]
    · intro tempName' stdout result pre post htemp' hrun hparse hstreams hpre
      rw [htemp] at htemp'
      cases htemp'
      have har' : ar = calculateAspectRatio 1920 1080 := by
        have h1 := getVideoAspectRatio_first_video env.ffprobe env.unmarshal tempName stdout
          result pre ⟨"video", 1920, 1080⟩ post hrun hparse hstreams hpre rfl
        rw [har] at h1
        cases h1
        rfl
      have hor : getVideoOrientation ar = "landscape" := by
        rw [har']
        exact classify_1920_1080
      rw [hor]
      unfold getAssetFilename at hname
      cases hrand : env.randRead with
      | error err => rw [hrand] at hname; cases hname
      | ok bytes =>
        rw [hrand] at hname
        simp only [Option.some.injEq, mediaTypeExt_mp4] at hname
        subst hname
        have hkey := (filepathJoin_key "landscape" (rawURLEncode (List.ofFn bytes))
          (Or.inl rfl) (rawURLEncode_mem _)).1
        rw [hkey]
        exact ⟨String.mk (rawURLEncode (List.ofFn bytes)) ++ ".mp4", by
          apply String.ext
          simp [String.data_append]⟩

/-- Witness for C9: the end-to-end scenario answers 200 with the record whose video URL is
the CDN URL of the key `landscape/AAECAwQFBgcICQoLDA0ODw.mp4`. -/
theorem handlerUploadVideo_success_witness :
    ∃ key video,
      getVideoFromDb scenarioEnv = .ok video ∧
      scenarioResult =
        { video with
          videoURL := some ("https://" ++ scenarioCfg.s3CfDistribution ++ "/" ++ key) } ∧
      (handlerUploadVideo scenarioCfg scenarioEnv ⟨[], []⟩).externals =
        [.putObject scenarioCfg.s3Bucket key "video/mp4",
          .updateVideo scenarioResult,
          .jsonResponse 200 scenarioResult] ∧
      (∀ (tempName stdout : String) (result : FFProbeOutput) (pre post : List Stream),
        scenarioEnv.createTempUpload = .ok tempName →
        scenarioEnv.ffprobe tempName = .ok stdout →
        scenarioEnv.unmarshal stdout = .ok result →
        result.streams = pre ++ ⟨"video", 1920, 1080⟩ :: post →
        (∀ x ∈ pre, x.codecType ≠ "video") →
        ∃ name, key = "landscape/" ++ name) :=
  handlerUploadVideo_success scenarioCfg scenarioEnv []
    scenarioResult
    (by rw [scenario_run]; decide)

end Tubely
